import Mathlib

/-!
# Travel budget calculator

A shallow embedding of the scripts of the travel budget calculator, and the
properties of them that hold or fail.  The sections of definitions follow the
source files: the API service, the storage service, the destination explorer,
the controllers that persist lists, the helpers and validators.

## The API service

A shallow embedding of `src/scripts/services/apiService.js`: the cache with
request coalescing (`getCachedOrFetch`, `clearCache`), the fetch wrapper
(`fetch`) and the data accessors built on them.

JavaScript runs the service on one thread.  A call of `getCachedOrFetch` runs
to completion (lines 54-79 contain no `await`), and the `then` or `catch`
handler attached to a producer runs to completion once that producer has
settled.  The embedding therefore has three kinds of atomic step on the
service state: a call, the settlement of a started producer, and `clearCache`.
`Date.now()` is passed to each step as the argument `now`.

Two points of granularity.  The settlement of a producer and the run of its
handler are one step: a producer counts as outstanding until its handler has
run, which is when the service state can first tell.  And a producer is taken
not to call back into the service for its own key while it is being started;
the producers of this file satisfy that (the producer of the rate history
calls `getExchangeRates`, whose key starts with `rates_`, not `history_`).

Numbers in JSON values are rationals: the only test the service makes on a
value is truthiness, which for a number asks whether it is zero.
-/

namespace TravelBudget

/-! ## Values -/

/-- JSON values, the data a producer resolves with and the cache stores. -/
inductive JsonValue where
  | null
  | bool (b : Bool)
  | num (n : ℚ)
  | str (s : String)
  | arr (items : List JsonValue)
  | obj (fields : List (String × JsonValue))

/-- JavaScript truthiness of a JSON value, as tested by `if (x)`: `null`,
`false`, `0` and the empty string are falsy, every array and object is truthy. -/
def JsonValue.truthy : JsonValue → Bool
  | .null => false
  | .bool b => b
  | .num n => decide (n ≠ 0)
  | .str s => decide (s ≠ "")
  | .arr _ => true
  | .obj _ => true

/-- A JavaScript error object: its `name` and its `message`. -/
structure JsError where
  name : String
  message : String
deriving DecidableEq, Repr

/-- The value of `new Error(message)`: the name of a plain error is `Error`. -/
def JsError.new (message : String) : JsError :=
  { name := "Error", message := message }

/-- How a promise settles: fulfilled with a value or rejected with an error. -/
abbrev Settled := Except JsError JsonValue

/-! ## Service state -/

/-- A cache entry, `{ data, timestamp }` (line 65). -/
structure CacheEntry where
  data : JsonValue
  timestamp : Int

/-- Identity of the promise `request` built at lines 63-76. -/
abbrev RequestId := Nat

/-- The producers handed to `getCachedOrFetch` as `fetchFn`.  A producer is a
JavaScript closure; the embedding names it by what it does. -/
inductive Producer where
  | httpGet (url : String)
  | photoSearch (countryName : String) (count : Nat)
  | rateHistory (baseCurrency targetCurrency : String) (days : Int)
  | custom (label : String)
deriving DecidableEq, Repr

/-- A producer that was started at line 63 and has not settled yet, with what
its `then` and `catch` handlers capture: `key` and the `cached` of line 54. -/
structure PendingRequest where
  id : RequestId
  key : String
  cached : Option CacheEntry
  fetchFn : Producer

/-- The service object.  `cache` and `activeRequests` are the two `Map`s of
the constructor (lines 8-9), observed through `get`, `has`, `set`, `delete`
and `clear`.  The other fields are bookkeeping of the embedding: the started
and unsettled producers, how each settled `request` promise settled, the next
unused promise identity, and the log of producer invocations (newest first). -/
structure APIService where
  cache : String → Option CacheEntry
  activeRequests : String → Option RequestId
  pending : List PendingRequest
  settled : RequestId → Option Settled
  nextId : RequestId
  invoked : List Producer

/-- The `cacheDuration` of the constructor: `5 * 60 * 1000` ms (line 16). -/
def APIService.cacheDuration : Int := 5 * 60 * 1000

/-- The `timeout` of the constructor: 10000 ms (line 17). -/
def APIService.timeout : Int := 10000

/-- The state built by `constructor()` (lines 7-19): both maps empty. -/
def APIService.new : APIService :=
  { cache := fun _ => none
    activeRequests := fun _ => none
    pending := []
    settled := fun _ => none
    nextId := 0
    invoked := [] }

/-- What a call of `getCachedOrFetch` returns: the cached data (line 56) or
the promise `request` (lines 60 and 79). -/
inductive Returned where
  | data (d : JsonValue)
  | request (r : RequestId)

/-- The test of line 55, `cached && Date.now() - cached.timestamp < duration`:
the entry when it passes.  An entry is an object, so `cached` is truthy
exactly when the key is present. -/
def freshEntry (cached : Option CacheEntry) (duration now : Int) : Option CacheEntry :=
  match cached with
  | some c => if now - c.timestamp < duration then some c else none
  | none => none

/-- The body of `getCachedOrFetch(key, fetchFn, duration)` (lines 53-80), run at clock
value `now`. -/
def APIService.getCachedOrFetch (self : APIService) (key : String) (fetchFn : Producer)
    (duration now : Int) : Returned × APIService :=
  let cached := self.cache key
  match freshEntry cached duration now with
  | some c => (.data c.data, self)
  | none =>
    match self.activeRequests key with
    | some r => (.request r, self)
    | none =>
      let request := self.nextId
      (.request request,
        { self with
          activeRequests := Function.update self.activeRequests key (some request)
          pending := { id := request, key := key, cached := cached, fetchFn := fetchFn } :: self.pending
          nextId := request + 1
          invoked := fetchFn :: self.invoked })

/-- The `then` handler (lines 64-68), run at clock value `now` with the
producer's `data`: the new service state and the returned value. -/
def thenHandler (self : APIService) (p : PendingRequest) (data : JsonValue) (now : Int) :
    Settled × APIService :=
  (.ok data,
    { self with
      cache := Function.update self.cache p.key (some { data := data, timestamp := now })
      activeRequests := Function.update self.activeRequests p.key none })

/-- The `catch` handler (lines 69-76) run with the producer's `error`:
`cached?.data` is tested for truthiness. -/
def catchHandler (self : APIService) (p : PendingRequest) (error : JsError) :
    Settled × APIService :=
  let self1 := { self with activeRequests := Function.update self.activeRequests p.key none }
  match p.cached with
  | some c => if c.data.truthy then (.ok c.data, self1) else (.error error, self1)
  | none => (.error error, self1)

/-- Settlement of the producer started for the promise `r`, at clock value
`now`: the handler that applies runs, `r` leaves the pending producers, and
the way `request` settles is recorded.  `none` when no started producer
belongs to `r`. -/
def APIService.settle (self : APIService) (r : RequestId) (outcome : Settled) (now : Int) :
    Option (Settled × APIService) :=
  match self.pending.find? (fun p => p.id == r) with
  | none => none
  | some p =>
    let (result, self1) :=
      match outcome with
      | .ok data => thenHandler self p data now
      | .error error => catchHandler self p error
    some (result,
      { self1 with
        pending := self1.pending.filter (fun q => q.id != r)
        settled := Function.update self1.settled r (some result) })

/-- The method `clearCache()` (lines 189-191): `this.cache.clear()`. -/
def APIService.clearCache (self : APIService) : APIService :=
  { self with cache := fun _ => none }

/-- What a caller holding `ret` has received once the service is in state
`self`: the data itself, or the settlement of the promise, `none` while the
promise is pending. -/
def APIService.received (self : APIService) : Returned → Option Settled
  | .data d => some (.ok d)
  | .request r => self.settled r

/-- One call of `getCachedOrFetch` on a fixed key, as a caller issues it. -/
structure Call where
  fetchFn : Producer
  duration : Int
  now : Int

/-- Calls of `getCachedOrFetch` on `key` issued one after the other, with no
settlement in between: what each call returned, and the final state. -/
def APIService.callMany (self : APIService) (key : String) : List Call → List Returned × APIService
  | [] => ([], self)
  | c :: rest =>
    let out := self.getCachedOrFetch key c.fetchFn c.duration c.now
    let outs := out.2.callMany key rest
    (out.1 :: outs.1, outs.2)

/-- The states a service object can be in: the constructed one, and every
state a call of `getCachedOrFetch`, the settlement of a started producer or a
call of `clearCache` leads to from such a state. -/
inductive Reachable : APIService → Prop where
  | init : Reachable APIService.new
  | call {s : APIService} (key : String) (fetchFn : Producer) (duration now : Int) :
      Reachable s → Reachable (s.getCachedOrFetch key fetchFn duration now).2
  | settle {s s2 : APIService} {result : Settled} (r : RequestId) (outcome : Settled) (now : Int) :
      Reachable s → s.settle r outcome now = some (result, s2) → Reachable s2
  | clearCache {s : APIService} : Reachable s → Reachable s.clearCache

/-! ## The fetch wrapper and the accessors -/

/-- What the global `fetch(url, ...)` awaited at line 29 does: it resolves
with a response, of which the wrapper reads `ok`, `status` and the settlement
of `json()`, or it rejects, with an error named `AbortError` when the
controller aborted the call. -/
inductive NetworkResult where
  | response (ok : Bool) (status : Nat) (json : Settled)
  | rejected (error : JsError)

/-- The `catch` block of the wrapper (lines 41-47). -/
def fetchCatch (error : JsError) : Settled :=
  if error.name = "AbortError" then .error (JsError.new "Request timed out")
  else .error error

/-- The method `fetch(url, options)` (lines 24-48), as a function of what the
global `fetch` does.  The template literal of line 37 prints the status, a
non-negative integer, in decimal. -/
def APIService.fetch : NetworkResult → Settled
  | .response ok status json =>
    if !ok then fetchCatch (JsError.new ("HTTP Error: " ++ toString status))
    else
      match json with
      | .ok body => .ok body
      | .error error => fetchCatch error
  | .rejected error => fetchCatch error

/-- The `exchangeRateAPI` of the constructor (line 11). -/
def APIService.exchangeRateAPI : String := "https://api.exchangerate-api.com/v4/latest"

/-- The method `getExchangeRates(baseCurrency)` (lines 85-92); a caller that
omits the argument passes `USD`. -/
def APIService.getExchangeRates (self : APIService) (baseCurrency : String) (now : Int) :
    Returned × APIService :=
  let cacheKey := "rates_" ++ baseCurrency
  self.getCachedOrFetch cacheKey
    (.httpGet (APIService.exchangeRateAPI ++ "/" ++ baseCurrency)) (5 * 60 * 1000) now

/-- Whether invoking the producer issues a network call through `fetch`. -/
def Producer.isNetworkCall : Producer → Bool
  | .httpGet _ => true
  | .photoSearch _ _ => true
  | .rateHistory _ _ _ => false
  | .custom _ => false

/-- Number of network calls issued by the producers invoked so far. -/
def APIService.networkCalls (self : APIService) : Nat :=
  (self.invoked.filter Producer.isNetworkCall).length

/-- Consistency of the service state: promise identities are unused until
handed out and distinct, no two started producers share a key, the marker of a
key is the promise of the started producer of that key, and the entry of a key
with a started producer is the one its handlers captured unless the cache was
cleared since. -/
structure Consistent (s : APIService) : Prop where
  idsBelow : ∀ p ∈ s.pending, p.id < s.nextId
  idsNodup : (s.pending.map PendingRequest.id).Nodup
  keysNodup : (s.pending.map PendingRequest.key).Nodup
  marker : ∀ k r, s.activeRequests k = some r ↔ ∃ p ∈ s.pending, p.key = k ∧ p.id = r
  captured : ∀ p ∈ s.pending, s.cache p.key = p.cached ∨ s.cache p.key = none

/-! ## Sample states -/

/-- A service whose cache holds the rates of `USD`, stored at clock value 1000. -/
def sampleFresh : APIService :=
  { APIService.new with
    cache := Function.update (fun _ => none) "rates_USD"
      (some { data := .obj [("USD", .num 1)], timestamp := 1000 }) }

/-- The constructed service after one call of `getExchangeRates` at clock
value 0: the producer is started and its marker is registered. -/
def samplePending : APIService :=
  (APIService.new.getExchangeRates "USD" 0).2

/-- A service whose cache holds `d` for the key `rates_USD`, stored at clock
value 0, with nothing in flight. -/
def sampleStale (d : JsonValue) : APIService :=
  { APIService.new with
    cache := Function.update (fun _ => none) "rates_USD" (some { data := d, timestamp := 0 }) }

/-- Calls that come while a refresh started at clock value 360000 is pending:
one with the window of the refresh, one with a window of 24 hours. -/
def sampleDuring : List Call :=
  [{ fetchFn := .custom "second", duration := 300000, now := 360001 },
   { fetchFn := .custom "third", duration := 86400000, now := 360002 }]

/-- Three more callers asking for the rates of `USD`, at clock values 5, 5
and 9. -/
def sampleLater : List Call :=
  [{ fetchFn := .custom "second", duration := 300000, now := 5 },
   { fetchFn := .custom "third", duration := 300000, now := 5 },
   { fetchFn := .custom "fourth", duration := 300000, now := 9 }]

/-! ## The platform -/

/-- The built-in operations of JavaScript that the scripts call and whose
result this file does not compute: each is taken as it is on the platform the
scripts run on, and every statement that names a platform holds of all of
them. -/
structure Platform where
  /-- The method `toLowerCase()` on a string that holds a character outside
  ASCII: the lower-casing of Unicode. -/
  toLowerCase : String → String
  /-- The method `toUpperCase()` on a string that holds a character outside
  ASCII: the upper-casing of Unicode. -/
  toUpperCase : String → String
  /-- The text a template literal prints for an integer of magnitude `10^21`
  or more, which is in exponent notation. -/
  numberToString : Int → String
  /-- What the conversion of an object or an array to a primitive raises, in
  `sum + x`, in a template literal, in `new Date(x)` and in `format(x)`. -/
  toPrimitive : JsonValue → Option JsError
  /-- Whether `destinations.reduce((sum, d) => sum + (d.budget || 0), 0)` is
  truthy on a non-empty array: the sum is taken in floating point. -/
  sumTruthy : List JsonValue → Bool
  /-- What `formatDate(date)` raises for a value other than `undefined`: a
  `RangeError` when the value gives no valid date. -/
  formatDate : JsonValue → Option JsError
  /-- What `new Intl.NumberFormat('en-US', ...)` raises for a `currency` other
  than `undefined`: a `RangeError` unless its text is three letters. -/
  numberFormat : JsonValue → Option JsError

/-- The method `toLowerCase()` of a string.  On a string of ASCII characters
it maps the letters `A` to `Z` to `a` to `z` and leaves the other characters;
on any other string it is the lower-casing of the platform. -/
def toLowerCase (platform : Platform) (s : String) : String :=
  if s.data.all (fun c => c.toNat < 128) then String.mk (s.data.map Char.toLower)
  else platform.toLowerCase s

/-- The text a template literal prints for an integer: its decimal digits
when its magnitude is below `10^21`, else what the platform prints. -/
def numberToString (platform : Platform) (n : Int) : String :=
  if n.natAbs < 10 ^ 21 then toString n else platform.numberToString n

/-- A platform for the samples.  It lower-cases the capital letters of Latin-1
(`À` to `Þ` but `×`) and upper-cases the small ones (`à` to `þ` but `÷`) as
Unicode does, and leaves the other characters beyond ASCII as they are; it
prints a large integer digit by digit, takes every sum of budgets for truthy,
and its conversions and its formats raise nothing.  The samples hold no other
character beyond ASCII, no integer that large, no destination and no value
that a browser fails to convert or format. -/
def samplePlatform : Platform :=
  { toLowerCase := fun s =>
      String.mk (s.data.map (fun c =>
        if 192 ≤ c.toNat ∧ c.toNat ≤ 222 ∧ c.toNat ≠ 215 then Char.ofNat (c.toNat + 32)
        else c.toLower))
    toUpperCase := fun s =>
      String.mk (s.data.map (fun c =>
        if 224 ≤ c.toNat ∧ c.toNat ≤ 254 ∧ c.toNat ≠ 247 then Char.ofNat (c.toNat - 32)
        else c.toUpper))
    numberToString := fun n => toString n
    toPrimitive := fun _ => none
    sumTruthy := fun _ => true
    formatDate := fun _ => none
    numberFormat := fun _ => none }

/-! ## The other accessors -/

/-- The `length` of a JavaScript string: its number of UTF-16 code units. -/
def utf16Length (s : String) : Nat :=
  (s.data.map (fun c => if c.toNat < 65536 then 1 else 2)).sum

/-- The `countriesAPI` of the constructor (line 12). -/
def APIService.countriesAPI : String := "https://restcountries.com/v3.1"

/-- The `unsplashAccessKey` of the constructor (line 15): the left operand of
`||` is a non-empty string, so it is the value. -/
def APIService.unsplashAccessKey : String := "your_unsplash_access_key_here"

/-- The method `getAllCountries()` (lines 97-104). -/
def APIService.getAllCountries (self : APIService) (now : Int) : Returned × APIService :=
  let cacheKey := "all_countries"
  self.getCachedOrFetch cacheKey (.httpGet (APIService.countriesAPI ++ "/all"))
    (24 * 60 * 60 * 1000) now

/-- The method `getCountryByName(name)` (lines 109-117): an empty name or a
name of fewer than two code units returns `[]` at once. -/
def APIService.getCountryByName (platform : Platform) (self : APIService) (name : String)
    (now : Int) : Returned × APIService :=
  if name = "" ∨ utf16Length name < 2 then (.data (.arr []), self)
  else
    let cacheKey := "country_" ++ toLowerCase platform name
    self.getCachedOrFetch cacheKey (.httpGet (APIService.countriesAPI ++ "/name/" ++ name))
      (24 * 60 * 60 * 1000) now

/-- The method `getCountriesByRegion(region)` (lines 122-129). -/
def APIService.getCountriesByRegion (platform : Platform) (self : APIService) (region : String)
    (now : Int) : Returned × APIService :=
  let cacheKey := "region_" ++ toLowerCase platform region
  self.getCachedOrFetch cacheKey (.httpGet (APIService.countriesAPI ++ "/region/" ++ region))
    (24 * 60 * 60 * 1000) now

/-- The method `getDestinationPhotos(countryName, count)` (lines 134-155); a
caller that omits `count` passes 6. -/
def APIService.getDestinationPhotos (platform : Platform) (self : APIService)
    (countryName : String) (count : Nat) (now : Int) : Returned × APIService :=
  if APIService.unsplashAccessKey = "" then (.data (.arr []), self)
  else
    let cacheKey := "photos_" ++ toLowerCase platform countryName
    self.getCachedOrFetch cacheKey (.photoSearch countryName count) (24 * 60 * 60 * 1000) now

/-- The method `getExchangeRateHistory(baseCurrency, targetCurrency, days)`
(lines 160-184) for an integer `days`; a caller that omits `days` passes 30.
The template literal prints `days` as `numberToString` says. -/
def APIService.getExchangeRateHistory (platform : Platform) (self : APIService)
    (baseCurrency targetCurrency : String) (days : Int) (now : Int) : Returned × APIService :=
  let cacheKey :=
    "history_" ++ baseCurrency ++ "_" ++ targetCurrency ++ "_" ++ numberToString platform days
  self.getCachedOrFetch cacheKey (.rateHistory baseCurrency targetCurrency days)
    (60 * 60 * 1000) now

/-! ## The storage service

A shallow embedding of `src/scripts/services/storageService.js`.  The browser
store `localStorage` maps keys to strings.  Of a stored string the service
observes two things: whether it is empty (line 36, `item ? ... : null`) and
what `JSON.parse` makes of it.  A stored string is therefore given as the JSON
value it is the text of, or as a string that is no JSON text.  `JSON.stringify`
of a JSON value yields the text of that value, which `JSON.parse` reads back
and which is never the empty string. -/

/-- A string held by `localStorage`: the text of a JSON value, or a string
that `JSON.parse` rejects (the empty string is one). -/
inductive StoredText where
  | json (v : JsonValue)
  | invalid (text : String)

/-- Truthiness of a stored string: it is not empty. -/
def StoredText.truthy : StoredText → Bool
  | .json _ => true
  | .invalid text => decide (text ≠ "")

/-- The call `JSON.stringify(value)` on a JSON value. -/
def JSON.stringify (value : JsonValue) : StoredText := .json value

/-- The call `JSON.parse(item)`: the value, or a `SyntaxError`. -/
def JSON.parse : StoredText → Except JsError JsonValue
  | .json v => .ok v
  | .invalid text => .error { name := "SyntaxError", message := "Unexpected token in " ++ text }

/-- The browser store: `getItem` of an absent key is `null` (`none`). -/
structure LocalStorage where
  items : String → Option StoredText

/-- The call `localStorage.setItem(key, text)`; it throws a
`QuotaExceededError` when the browser refuses the write. -/
def LocalStorage.setItem (ls : LocalStorage) (key : String) (text : StoredText)
    (refused : Bool) : Except JsError LocalStorage :=
  if refused then .error { name := "QuotaExceededError", message := "The quota has been exceeded." }
  else .ok { items := Function.update ls.items key (some text) }

/-- The call `localStorage.getItem(key)`. -/
def LocalStorage.getItem (ls : LocalStorage) (key : String) : Option StoredText :=
  ls.items key

/-- The call `localStorage.removeItem(key)`. -/
def LocalStorage.removeItem (ls : LocalStorage) (key : String) : LocalStorage :=
  { items := Function.update ls.items key none }

/-- The call `localStorage.clear()`. -/
def LocalStorage.clear (_ls : LocalStorage) : LocalStorage :=
  { items := fun _ => none }

/-- The storage service with the browser store it wraps: the field
`available` of the constructor (line 8) and the content of `localStorage`. -/
structure StorageService where
  available : Bool
  localStorage : LocalStorage

/-- The method `checkAvailable()` (lines 11-21) on the browser store `ls`: it
writes and removes the key `__test__` and answers `true`, or answers `false`
when the write throws. -/
def StorageService.checkAvailable (ls : LocalStorage) (refused : Bool) :
    Except JsError (Bool × LocalStorage) :=
  match ls.setItem "__test__" (.invalid "__test__") refused with
  | .ok ls1 => .ok (true, ls1.removeItem "__test__")
  | .error _ => .ok (false, ls)

/-- The state built by `constructor()` (lines 7-9). -/
def StorageService.new (ls : LocalStorage) (refused : Bool) : Except JsError StorageService :=
  match StorageService.checkAvailable ls refused with
  | .ok (available, ls1) => .ok { available := available, localStorage := ls1 }
  | .error e => .error e

/-- The method `setItem(key, value)` (lines 23-30); `refused` tells whether
the browser refuses the write. -/
def StorageService.setItem (self : StorageService) (key : String) (value : JsonValue)
    (refused : Bool) : Except JsError StorageService :=
  if !self.available then .ok self
  else
    match self.localStorage.setItem key (JSON.stringify value) refused with
    | .ok ls => .ok { self with localStorage := ls }
    | .error _ => .ok self

/-- The method `removeItem(key)` (lines 44-51). -/
def StorageService.removeItem (self : StorageService) (key : String) :
    Except JsError StorageService :=
  if !self.available then .ok self
  else .ok { self with localStorage := self.localStorage.removeItem key }

/-- The method `getItem(key)` (lines 32-42): the returned value, `null` being
the JSON value `null`, and the service after the call. -/
def StorageService.getItem (self : StorageService) (key : String) :
    Except JsError (JsonValue × StorageService) :=
  if !self.available then .ok (.null, self)
  else
    let attempt : Except JsError JsonValue :=
      match self.localStorage.getItem key with
      | some item => if item.truthy then JSON.parse item else .ok .null
      | none => .ok .null
    match attempt with
    | .ok value => .ok (value, self)
    | .error _ =>
      match self.removeItem key with
      | .ok self1 => .ok (.null, self1)
      | .error e => .error e

/-- The method `clear()` (lines 53-60). -/
def StorageService.clear (self : StorageService) : Except JsError StorageService :=
  if !self.available then .ok self
  else .ok { self with localStorage := self.localStorage.clear }

/-- A browser store that holds a trip list under `tbc_trips`, a string that
is no JSON text under `tbc_preferences` and the empty string under
`tbc_user_settings`. -/
def sampleStore : LocalStorage :=
  { items := fun key =>
      if key = "tbc_trips" then some (.json (.arr [.obj [("id", .str "_t1")]]))
      else if key = "tbc_preferences" then some (.invalid "undefined")
      else if key = "tbc_user_settings" then some (.invalid "")
      else none }

/-- An available storage service on `sampleStore`. -/
def sampleStorage : StorageService :=
  { available := true, localStorage := sampleStore }

/-! ## The destination explorer

A shallow embedding of `filterCountries` and `showModal` of
`src/scripts/modules/explorer.js`.  What an awaited call of the API service
gives is an argument.  Markup is given by its parts: the exact text of the
generated HTML is not modelled. -/

/-- A country record of the countries API, with the fields the two methods
read: `cca2`, `name.common`, `name.official` and `region`. -/
structure Country where
  cca2 : String
  nameCommon : String
  nameOfficial : String
  region : String
deriving DecidableEq, Repr

/-- The call `text.includes(search)`. -/
def includes (text search : String) : Bool :=
  decide (search.data <:+: text.data)

/-- The content `showModal` gives the modal body at lines 172-240: the details
of the country, and the block `photo-gallery` with the photos it shows, which
the template prints when `photos.length > 0` and leaves out otherwise. -/
structure ModalBody where
  country : Country
  gallery : Option (List JsonValue)

/-- The explorer: the fields `countries` and `filtered` of the constructor
(lines 11-12). -/
structure DestinationExplorer where
  countries : List Country
  filtered : List Country

/-- The callback of the filter at lines 92-98. -/
def matchesSearch (platform : Platform) (search : String) (country : Country) : Bool :=
  search = "" ||
    includes (toLowerCase platform country.nameCommon) search ||
    includes (toLowerCase platform country.nameOfficial) search

/-- The method `filterCountries()` (lines 65-107) with the value of the search
box and of the region selector; `byRegion` and `all` are what awaiting
`getCountriesByRegion(region)` and `getAllCountries()` gives.  When an awaited
call fails, the `catch` block leaves both fields as they were. -/
def DestinationExplorer.filterCountries (platform : Platform) (self : DestinationExplorer)
    (searchInput region : String) (byRegion all : Except JsError (List Country)) :
    DestinationExplorer :=
  let search := toLowerCase platform searchInput
  let attempt : Except JsError DestinationExplorer :=
    if region ≠ "" ∧ search = "" then
      match byRegion with
      | .ok countries => .ok { countries := countries, filtered := countries }
      | .error e => .error e
    else if region = "" ∧ search = "" then
      match all with
      | .ok countries => .ok { countries := countries, filtered := countries }
      | .error e => .error e
    else
      let base : Except JsError (List Country) :=
        if region ≠ "" ∧ self.countries.length > 0 ∧
            (self.countries.head?.map Country.region) ≠ some region then byRegion
        else if region = "" ∧ self.countries.length > 0 ∧ self.countries.length < 50 then all
        else .ok self.countries
      match base with
      | .ok countries =>
        .ok { countries := countries,
              filtered := countries.filter (matchesSearch platform search) }
      | .error e => .error e
  match attempt with
  | .ok next => next
  | .error _ => self

/-- The method `showModal(country)` (lines 144-247): `none` for the return of
line 145, else the content given to the modal body.  `awaited` is what awaiting
`getDestinationPhotos` gives, an array when it succeeds; the `catch` block of
lines 167-169 leaves `photos` the empty array. -/
def DestinationExplorer.showModal (country : Option Country)
    (awaited : Except JsError (List JsonValue)) : Except JsError (Option ModalBody) :=
  match country with
  | none => .ok none
  | some country =>
    let photos : List JsonValue :=
      match awaited with
      | .ok result => result
      | .error _ => []
    .ok (some { country := country, gallery := if photos.length > 0 then some photos else none })

/-- An explorer that holds a list of all countries whose first is European. -/
def sampleExplorer : DestinationExplorer :=
  { countries :=
      [{ cca2 := "FR", nameCommon := "France", nameOfficial := "French Republic", region := "Europe" },
       { cca2 := "JP", nameCommon := "Japan", nameOfficial := "Japan", region := "Asia" }]
    filtered :=
      [{ cca2 := "FR", nameCommon := "France", nameOfficial := "French Republic", region := "Europe" },
       { cca2 := "JP", nameCommon := "Japan", nameOfficial := "Japan", region := "Asia" }] }

/-! ## The controllers that persist lists

A shallow embedding of `TripManager.deleteTrip` (`modules/tripManager.js`).  A
JavaScript array or object read from storage is the JSON value it is.  The answer to
`confirm(...)` and whether the browser refuses a write are arguments.

Of the rendering of the trip manager (`displayTrips`) the markup is not
modelled, the page always has the container it writes to, and what is
modelled is the error it raises, if any: `loadTrips` and `deleteTrip` end
with it, after they have written their state.  A call that can raise after it
wrote gives a `Completion`: the error raised, if any, and the state left. -/

/-- The key `CONSTANTS.STORAGE_KEYS.TRIPS` (`config/constants.js`, line 10). -/
def CONSTANTS.STORAGE_KEYS.TRIPS : String := "tbc_trips"

/-- The key `CONSTANTS.STORAGE_KEYS.EXPENSES` (line 11). -/
def CONSTANTS.STORAGE_KEYS.EXPENSES : String := "tbc_expenses"

/-- The key `CONSTANTS.STORAGE_KEYS.CONVERSION_HISTORY` (line 13). -/
def CONSTANTS.STORAGE_KEYS.CONVERSION_HISTORY : String := "tbc_conversion_history"

/-- The error JavaScript throws for a property read on `null` or the call of
something that is no function. -/
def typeError (message : String) : JsError :=
  { name := "TypeError", message := message }

/-- The expression `value || []`. -/
def JsonValue.orEmptyArray (value : JsonValue) : JsonValue :=
  if value.truthy then value else .arr []

/-- The property `record.name` of a JSON value that is not `null`: `none`
stands for `undefined`.  An object holds each of its keys once. -/
def JsonValue.prop (name : String) : JsonValue → Option JsonValue
  | .obj fields => fields.lookup name
  | _ => none

/-- The property read `record.name`: it throws on `null`. -/
def JsonValue.getProp (name : String) (record : JsonValue) : Except JsError (Option JsonValue) :=
  match record with
  | .null => .error (typeError ("Cannot read properties of null (reading '" ++ name ++ "')"))
  | other => .ok (other.prop name)

/-- The comparison `x !== value` of a property with a string: it is false
only for that very string. -/
def strictNe (x : Option JsonValue) (value : String) : Bool :=
  match x with
  | some (.str s) => s != value
  | _ => true

/-- The callback `record => record.name !== value`. -/
def propDiffers (name value : String) (record : JsonValue) : Except JsError Bool :=
  match record.getProp name with
  | .ok x => .ok (strictNe x value)
  | .error e => .error e

/-- The elements an array keeps under `filter(callback)`, in their order; the
first callback that throws ends the call. -/
def filterE (callback : JsonValue → Except JsError Bool) :
    List JsonValue → Except JsError (List JsonValue)
  | [] => .ok []
  | x :: xs =>
    match callback x with
    | .error e => .error e
    | .ok keep =>
      match filterE callback xs with
      | .error e => .error e
      | .ok rest => .ok (if keep then x :: rest else rest)

/-- The call `value.filter(callback)`: a `TypeError` unless `value` is an
array. -/
def JsonValue.filter (callback : JsonValue → Except JsError Bool) :
    JsonValue → Except JsError JsonValue
  | .arr items =>
    match filterE callback items with
    | .ok kept => .ok (.arr kept)
    | .error e => .error e
  | _ => .error (typeError "filter is not a function")

/-- What `getItem(key) || []` evaluates to on this store: the persisted list
as a controller loads it. -/
def StorageService.persistedOrEmpty (self : StorageService) (key : String) : JsonValue :=
  match self.getItem key with
  | .ok (value, _) => value.orEmptyArray
  | .error _ => .arr []

/-- How a call ends that can raise after it changed the state: the error it
raises, if any, and the state it leaves. -/
structure Completion (σ : Type) where
  raised : Option JsError
  state : σ

/-- The first error raised by steps run one after the other, `none` when no
step raises. -/
def firstRaised : List (Option JsError) → Option JsError
  | [] => none
  | some e :: _ => some e
  | none :: rest => firstRaised rest

/-- What the conversion of a property to a primitive raises; `none` as the
property is `undefined`.  Only the conversion of an object or of an array can
raise. -/
def conversionRaises (platform : Platform) : Option JsonValue → Option JsError
  | some (.obj fields) => platform.toPrimitive (.obj fields)
  | some (.arr items) => platform.toPrimitive (.arr items)
  | _ => none

/-- The expression `x || 0` on a property. -/
def orZeroValue : Option JsonValue → JsonValue
  | some x => if x.truthy then x else .num 0
  | none => .num 0

/-- What `formatDate(date)` (`utils/helpers.js`, lines 18-25) raises: nothing
on `undefined`, for which `format` takes the current time. -/
def formatDate (platform : Platform) : Option JsonValue → Option JsError
  | none => none
  | some date => platform.formatDate date

/-- What `formatCurrency(value, currency)` (`utils/helpers.js`, lines 8-13)
raises: first the constructor of the number format, which takes `USD` for an
`undefined` currency, then the conversion of `value` to a number, given by
what it raises. -/
def formatCurrency (platform : Platform) (valueRaises : Option JsError)
    (currency : Option JsonValue) : Option JsError :=
  firstRaised
    [match currency with
      | none => none
      | some code => platform.numberFormat code,
     valueRaises]

/-- What `destinations.reduce((sum, d) => sum + (d.budget || 0), 0)` raises
(line 40): the read of `d.budget` raises on `null`, the addition when the
budget is converted to a primitive. -/
def reduceBudgetsRaises (platform : Platform) : List JsonValue → Option JsError
  | [] => none
  | d :: rest =>
    match d.getProp "budget" with
    | .error e => some e
    | .ok budget =>
      match conversionRaises platform (some (orZeroValue budget)) with
      | some e => some e
      | none => reduceBudgetsRaises platform rest

/-- What the callback of line 59 raises on a destination, which is not
`null`: the template literal converts a truthy `d.city`, then the addition
converts `d.country`. -/
def destinationTextRaises (platform : Platform) (d : JsonValue) : Option JsError :=
  firstRaised
    [match d.prop "city" with
      | some city => if city.truthy then conversionRaises platform (some city) else none
      | none => none,
     conversionRaises platform (d.prop "country")]

/-- The trip manager: the field `trips` of the constructor (line 12). -/
structure TripManager where
  trips : JsonValue

/-- What the callback of `map` (lines 39-90) raises on a trip.  Line 40 reads
`trip.destinations` and calls its `reduce`; with an array of destinations the
steps that can raise follow in the order of the source: the additions of line
40, the two `new Date(...)` of lines 41-42, then in the template literal the
name (line 48), the two dates (line 53), the total budget, which is
`trip.budget` unless the budgets of the destinations sum to a truthy value
(line 56), the destinations (line 59), the description (line 63), the currency
(line 80) and the identifier (lines 85-86). -/
def TripManager.renderTrip (platform : Platform) (trip : JsonValue) : Option JsError :=
  match trip.getProp "destinations" with
  | .error e => some e
  | .ok none => some (typeError "Cannot read properties of undefined (reading 'reduce')")
  | .ok (some .null) => some (typeError "Cannot read properties of null (reading 'reduce')")
  | .ok (some (.arr destinations)) =>
    firstRaised
      [reduceBudgetsRaises platform destinations,
       conversionRaises platform (trip.prop "startDate"),
       conversionRaises platform (trip.prop "endDate"),
       conversionRaises platform (trip.prop "name"),
       formatDate platform (trip.prop "startDate"),
       formatDate platform (trip.prop "endDate"),
       formatCurrency platform
         (if !destinations.isEmpty && platform.sumTruthy destinations then none
          else conversionRaises platform (trip.prop "budget"))
         (trip.prop "currency"),
       firstRaised (destinations.map (destinationTextRaises platform)),
       (match trip.prop "description" with
        | some description =>
          if description.truthy then conversionRaises platform (some description) else none
        | none => none),
       conversionRaises platform (trip.prop "currency"),
       conversionRaises platform (trip.prop "id")]
  | .ok (some _) => some (typeError "trip.destinations.reduce is not a function")

/-- What the method `displayTrips()` (lines 31-92) raises.  An empty array,
the empty string and an object whose `length` is 0 pass the test of line 32
and nothing is rendered; `null` has no `length`; of a non-empty array the
trips are rendered in their order; any other value has no `map`. -/
def TripManager.displayTrips (platform : Platform) (self : TripManager) : Option JsError :=
  match self.trips with
  | .arr trips => firstRaised (trips.map (TripManager.renderTrip platform))
  | .null => some (typeError "Cannot read properties of null (reading 'length')")
  | .str text =>
    if text = "" then none else some (typeError "this.trips.map is not a function")
  | .obj fields =>
    match fields.lookup "length" with
    | some (.num n) =>
      if n = 0 then none else some (typeError "this.trips.map is not a function")
    | _ => some (typeError "this.trips.map is not a function")
  | _ => some (typeError "this.trips.map is not a function")

/-- The method `loadTrips()` (lines 26-29): the trips are loaded, then
rendered. -/
def TripManager.loadTrips (platform : Platform) (self : TripManager) (storage : StorageService) :
    Completion (TripManager × StorageService) :=
  match storage.getItem CONSTANTS.STORAGE_KEYS.TRIPS with
  | .ok (value, storage1) =>
    { raised := TripManager.displayTrips platform { trips := value.orEmptyArray }
      state := ({ trips := value.orEmptyArray }, storage1) }
  | .error e => { raised := some e, state := (self, storage) }

/-- The method `deleteTrip(tripId)` (lines 101-113); `confirmed` is the answer
to `confirm(...)`, `refusedExpenses` and `refusedTrips` tell whether the
browser refuses the write of line 108 and of line 110.  A `filter` that
raises ends the call with what was assigned before it. -/
def TripManager.deleteTrip (platform : Platform) (self : TripManager) (storage : StorageService)
    (tripId : String) (confirmed refusedExpenses refusedTrips : Bool) :
    Completion (TripManager × StorageService) :=
  if confirmed then
    match self.trips.filter (propDiffers "id" tripId) with
    | .error e => { raised := some e, state := (self, storage) }
    | .ok trips =>
      match storage.getItem CONSTANTS.STORAGE_KEYS.EXPENSES with
      | .error e => { raised := some e, state := ({ trips := trips }, storage) }
      | .ok (stored, storage1) =>
        match stored.orEmptyArray.filter (propDiffers "tripId" tripId) with
        | .error e => { raised := some e, state := ({ trips := trips }, storage1) }
        | .ok expenses =>
          match storage1.setItem CONSTANTS.STORAGE_KEYS.EXPENSES expenses refusedExpenses with
          | .error e => { raised := some e, state := ({ trips := trips }, storage1) }
          | .ok storage2 =>
            match storage2.setItem CONSTANTS.STORAGE_KEYS.TRIPS trips refusedTrips with
            | .error e => { raised := some e, state := ({ trips := trips }, storage2) }
            | .ok storage3 => TripManager.loadTrips platform { trips := trips } storage3
  else { raised := none, state := (self, storage) }

/-- A storage service on a browser that gives no access to `localStorage`. -/
def sampleUnavailable : StorageService :=
  { available := false, localStorage := { items := fun _ => none } }

/-! ## Helpers and validators

A shallow embedding of `parseNumber` and `getCountryFlag` of
`src/scripts/utils/helpers.js` and of `Validators.isValidNumber` of
`src/scripts/utils/validators.js`. -/

/-- A JavaScript number, as far as these functions tell numbers apart: `NaN`,
the two infinities, or a finite number (the two zeros are one). -/
inductive JsNumber where
  | nan
  | negInfinity
  | finite (q : ℚ)
  | posInfinity
deriving DecidableEq

/-- The call `isNaN(num)` on a number. -/
def JsNumber.isNaN : JsNumber → Bool
  | .nan => true
  | _ => false

/-- The comparison `num >= 0`; it is false for `NaN`. -/
def JsNumber.geZero : JsNumber → Bool
  | .nan => false
  | .negInfinity => false
  | .finite q => decide (0 ≤ q)
  | .posInfinity => true

/-- The comparison `num < 0`: the number is negative. -/
def JsNumber.isNegative : JsNumber → Bool
  | .nan => false
  | .negInfinity => true
  | .finite q => decide (q < 0)
  | .posInfinity => false

/-- A value handed to `parseFloat`: a string, as read from an input field, or
a number. -/
inductive JsInput where
  | text (s : String)
  | number (n : JsNumber)

/-- The global `parseFloat(value)`.  On a string it is the function of the
platform, the argument `parseText`.  A number is first turned into its decimal
text, which reads back as that number, and `NaN` as `NaN`. -/
def parseFloat (parseText : String → JsNumber) : JsInput → JsNumber
  | .text s => parseText s
  | .number n => n

/-- The function `parseNumber(value)` (`helpers.js`, lines 30-33). -/
def parseNumber (parseText : String → JsNumber) (value : JsInput) : JsNumber :=
  let parsed := parseFloat parseText value
  if parsed.isNaN then .finite 0 else parsed

/-- The method `Validators.isValidNumber(value)` (`validators.js`, lines 6-9). -/
def Validators.isValidNumber (parseText : String → JsNumber) (value : JsInput) : Bool :=
  let num := parseFloat parseText value
  !num.isNaN && num.geZero

/-- The guard of `CurrencyConverter.convert` (`converter.js`, lines 99-106) on
the text of the amount field: whether the method writes `0.00` and returns. -/
def CurrencyConverter.convertRejects (parseText : String → JsNumber) (fromAmount : String) : Bool :=
  let amount := parseNumber parseText (.text fromAmount)
  !Validators.isValidNumber parseText (.number amount)

/-! ## The conversion history

A shallow embedding of `saveToHistory` and `loadHistory` of
`src/scripts/modules/converter.js`.  `convert()` hands `saveToHistory` the
amount typed, the amount converted and the rate as numbers of JavaScript: the
converted amount is `Infinity` when the product overflows.  The history held
in memory is therefore made of the items built from such numbers and of the
values loaded from storage.  `JSON.stringify` writes `NaN` and the two
infinities as `null`. -/

/-- The call `isFinite(n)`. -/
def JsNumber.isFinite : JsNumber → Bool
  | .finite _ => true
  | _ => false

/-- The JSON value whose text `JSON.stringify` writes for a number: `null`
for `NaN` and the infinities. -/
def JsNumber.toJson : JsNumber → JsonValue
  | .finite q => .num q
  | _ => .null

/-- An element of the history held in memory: a value loaded from storage,
or the object built at lines 192-200 with its properties `id`, `fromAmount`,
`fromCurrency`, `toAmount`, `toCurrency`, `rate` and `timestamp`. -/
inductive HistoryEntry where
  | loaded (value : JsonValue)
  | item (id : Int) (fromAmount : JsNumber) (fromCurrency : String) (toAmount : JsNumber)
      (toCurrency : String) (rate : JsNumber) (timestamp : String)

/-- Whether every number of the entry is finite.  The numbers of a loaded
value are: it is a JSON value, and a number text that overflows, which
`JSON.stringify` never writes, is not among the stored texts. -/
def HistoryEntry.finite : HistoryEntry → Bool
  | .loaded _ => true
  | .item _ fromAmount _ toAmount _ rate _ =>
    fromAmount.isFinite && toAmount.isFinite && rate.isFinite

/-- The JSON value whose text `JSON.stringify` writes for an entry. -/
def HistoryEntry.toJson : HistoryEntry → JsonValue
  | .loaded value => value
  | .item id fromAmount fromCurrency toAmount toCurrency rate timestamp =>
    .obj [("id", .num id), ("fromAmount", fromAmount.toJson), ("fromCurrency", .str fromCurrency),
      ("toAmount", toAmount.toJson), ("toCurrency", .str toCurrency), ("rate", rate.toJson),
      ("timestamp", .str timestamp)]

/-- The entry held in memory and a JSON value are the same value: a loaded
value is that value, and a built item is the object with its properties, each
number of it a finite one. -/
def HistoryEntry.sameAs (entry : HistoryEntry) (value : JsonValue) : Prop :=
  match entry with
  | .loaded stored => stored = value
  | .item id fromAmount fromCurrency toAmount toCurrency rate timestamp =>
    ∃ a b r : ℚ, fromAmount = .finite a ∧ toAmount = .finite b ∧ rate = .finite r ∧
      value = .obj [("id", .num id), ("fromAmount", .num a), ("fromCurrency", .str fromCurrency),
        ("toAmount", .num b), ("toCurrency", .str toCurrency), ("rate", .num r),
        ("timestamp", .str timestamp)]

/-- The value of the field `conversionHistory`: an array of entries, or a
value loaded from storage that is no array. -/
inductive HistoryValue where
  | array (entries : List HistoryEntry)
  | other (value : JsonValue)

/-- The history held in memory and a JSON value are the same value: an array
of as many elements, each the same value as the entry at its place. -/
def HistoryValue.sameAs (history : HistoryValue) (value : JsonValue) : Prop :=
  match history with
  | .array entries => ∃ items, value = .arr items ∧ List.Forall₂ HistoryEntry.sameAs entries items
  | .other stored => stored = value

/-- The currency converter: the field `conversionHistory` of the constructor
(line 16). -/
structure CurrencyConverter where
  conversionHistory : HistoryValue

/-- The object `historyItem` of lines 192-200; `now` is `Date.now()` and
`isoTime` is `new Date().toISOString()`. -/
def historyItem (fromAmount : JsNumber) (fromCurrency : String) (toAmount : JsNumber)
    (toCurrency : String) (rate : JsNumber) (now : Int) (isoTime : String) : HistoryEntry :=
  .item now fromAmount fromCurrency toAmount toCurrency rate isoTime

/-- The method `saveToHistory(...)` (lines 191-209): `unshift`, the cut to ten
items and the write, in which `JSON.stringify` turns each entry into its JSON
value; `unshift` throws unless the history is an array. -/
def CurrencyConverter.saveToHistory (self : CurrencyConverter) (storage : StorageService)
    (fromAmount : JsNumber) (fromCurrency : String) (toAmount : JsNumber) (toCurrency : String)
    (rate : JsNumber) (now : Int) (isoTime : String) (refused : Bool) :
    Except JsError (CurrencyConverter × StorageService) :=
  match self.conversionHistory with
  | .array entries =>
    let unshifted :=
      historyItem fromAmount fromCurrency toAmount toCurrency rate now isoTime :: entries
    let conversionHistory := if unshifted.length > 10 then unshifted.take 10 else unshifted
    match storage.setItem CONSTANTS.STORAGE_KEYS.CONVERSION_HISTORY
        (.arr (conversionHistory.map HistoryEntry.toJson)) refused with
    | .ok storage1 => .ok ({ conversionHistory := .array conversionHistory }, storage1)
    | .error e => .error e
  | .other _ => .error (typeError "this.conversionHistory.unshift is not a function")

/-- The method `loadHistory()` (lines 211-213). -/
def CurrencyConverter.loadHistory (_self : CurrencyConverter) (storage : StorageService) :
    Except JsError (CurrencyConverter × StorageService) :=
  match storage.getItem CONSTANTS.STORAGE_KEYS.CONVERSION_HISTORY with
  | .ok (value, storage1) =>
    match value.orEmptyArray with
    | .arr items => .ok ({ conversionHistory := .array (items.map HistoryEntry.loaded) }, storage1)
    | other => .ok ({ conversionHistory := .other other }, storage1)
  | .error e => .error e

/-- A converter that has made no conversion yet. -/
def sampleConverter : CurrencyConverter :=
  { conversionHistory := .array [] }

/-- The conversion of 100 `USD` at the rate 0.91 made at the clock value
`now`. -/
def sampleConversion (now : Int) : HistoryEntry :=
  historyItem (.finite 100) "USD" (.finite 91) "EUR" (.finite (91 / 100)) now
    "2023-11-14T22:13:20.000Z"

/-- A converter that has made ten conversions, the latest first. -/
def sampleConverterTen : CurrencyConverter :=
  { conversionHistory := .array
      [sampleConversion 1700000000010, sampleConversion 1700000000009,
       sampleConversion 1700000000008, sampleConversion 1700000000007,
       sampleConversion 1700000000006, sampleConversion 1700000000005,
       sampleConversion 1700000000004, sampleConversion 1700000000003,
       sampleConversion 1700000000002, sampleConversion 1700000000001] }

/-- The method `toUpperCase()` of a string.  On a string of ASCII characters
it maps the letters `a` to `z` to `A` to `Z` and leaves the other characters;
on any other string it is the upper-casing of the platform. -/
def toUpperCase (platform : Platform) (s : String) : String :=
  if s.data.all (fun c => c.toNat < 128) then String.mk (s.data.map Char.toUpper)
  else platform.toUpperCase s

/-- The UTF-16 code units of a string, which `split('')` cuts it into and
`charCodeAt()` reads. -/
def utf16Units (s : String) : List Nat :=
  s.data.flatMap (fun c =>
    if c.toNat < 65536 then [c.toNat]
    else [55296 + (c.toNat - 65536) / 1024, 56320 + (c.toNat - 65536) % 1024])

/-- The call `String.fromCodePoint(...codePoints)`. -/
def fromCodePoint (codePoints : List Nat) : String :=
  String.mk (codePoints.map Char.ofNat)

/-- The function `getCountryFlag(countryCode)` (`helpers.js`, lines 53-60);
`none` is a missing code. -/
def getCountryFlag (platform : Platform) (countryCode : Option String) : String :=
  match countryCode with
  | none => "🌍"
  | some code =>
    if code = "" ∨ utf16Length code ≠ 2 then "🌍"
    else fromCodePoint ((utf16Units (toUpperCase platform code)).map (fun unit => 127397 + unit))

/-- An ASCII letter: `A` to `Z` or `a` to `z`. -/
def isAsciiLetter (c : Char) : Bool :=
  (65 ≤ c.toNat && c.toNat ≤ 90) || (97 ≤ c.toNat && c.toNat ≤ 122)

/-! ## The total budget of a trip in the two trip views -/

/-- A destination record, with the field the totals read: `budget`, a number,
or `none` for a value that is no number (`NaN`, `null` or a missing field). -/
structure DestinationRecord where
  budget : Option ℚ

/-- A trip record, with the fields the totals read: `budget` and
`destinations`. -/
structure TripRecord where
  budget : Option ℚ
  destinations : List DestinationRecord

/-- The expression `budget || 0` on a budget field. -/
def orZero (budget : Option ℚ) : ℚ :=
  match budget with
  | some q => q
  | none => 0

/-- The sum `trip.destinations.reduce((sum, d) => sum + (d.budget || 0), 0)`
(`budget.js`, lines 58 and 325; `tripManager.js`, line 40). -/
def destinationsBudget (trip : TripRecord) : ℚ :=
  trip.destinations.foldl (fun sum d => sum + orZero d.budget) 0

/-- The total of `BudgetCalculator` (`budget.js`, lines 59 and 326):
`destinationsBudget > 0 ? destinationsBudget : (trip.budget || 0)`. -/
def BudgetCalculator.totalBudget (trip : TripRecord) : Option ℚ :=
  if destinationsBudget trip > 0 then some (destinationsBudget trip)
  else some (orZero trip.budget)

/-- The total of `TripManager.displayTrips` (`tripManager.js`, line 40): the
sum `|| trip.budget`. -/
def TripManager.totalBudget (trip : TripRecord) : Option ℚ :=
  if destinationsBudget trip ≠ 0 then some (destinationsBudget trip)
  else trip.budget

/-- A trip with a budget of 100 and one destination with a budget of -50. -/
def sampleTrip : TripRecord :=
  { budget := some 100, destinations := [{ budget := some (-50) }] }

/-- A trip whose budget field holds no number, with no destination. -/
def sampleTripNoBudget : TripRecord :=
  { budget := none, destinations := [] }

/-! ## The controllers together

A shallow embedding of the operations of `BudgetCalculator`
(`modules/budget.js`) and `ExpenseTracker` (`modules/tracker.js`) that write
trips and expenses, next to `TripManager.deleteTrip` above.  The controllers
are the fields of the application object `window.__app` (`app.js`, lines
15-19), which exists when an operation runs.  What the user typed into a form
is given as the record built from it, the identifier drawn by `generateId()`
included.  The rendering of the trip manager is modelled as far as it raises;
the rendering of the budget calculator and of the expense tracker is not
modelled.  An operation of the application that raises is an error: the state
it leaves is not followed further. -/

/-- The call `array.push(item)`: a `TypeError` unless `array` is an array. -/
def JsonValue.push (array item : JsonValue) : Except JsError JsonValue :=
  match array with
  | .arr items => .ok (.arr (items ++ [item]))
  | _ => .error (typeError "push is not a function")

/-- The budget calculator: the field `trips` of the constructor
(`budget.js`, line 12). -/
structure BudgetCalculator where
  trips : JsonValue

/-- The expense tracker: the fields `trips`, `expenses` and `selectedTripId`
of the constructor (`tracker.js`, lines 12-14); `none` is `null`. -/
structure ExpenseTracker where
  trips : JsonValue
  expenses : JsonValue
  selectedTripId : Option String

/-- The application: its controllers that hold trips or expenses, and the
storage service they share. -/
structure Application where
  budgetCalc : BudgetCalculator
  expenseTracker : ExpenseTracker
  tripManager : TripManager
  storage : StorageService

/-- The application once `init()` has run on an empty and available store:
every controller has loaded the empty list. -/
def Application.start : Application :=
  { budgetCalc := { trips := .arr [] }
    expenseTracker := { trips := .arr [], expenses := .arr [], selectedTripId := none }
    tripManager := { trips := .arr [] }
    storage := { available := true, localStorage := { items := fun _ => none } } }

/-- The method `ExpenseTracker.loadData()` (`tracker.js`, lines 40-44). -/
def ExpenseTracker.loadData (self : ExpenseTracker) (storage : StorageService) :
    Except JsError (ExpenseTracker × StorageService) :=
  match storage.getItem CONSTANTS.STORAGE_KEYS.TRIPS with
  | .error e => .error e
  | .ok (trips, storage1) =>
    match storage1.getItem CONSTANTS.STORAGE_KEYS.EXPENSES with
    | .error e => .error e
    | .ok (expenses, storage2) =>
      .ok ({ self with trips := trips.orEmptyArray, expenses := expenses.orEmptyArray }, storage2)

/-- The method `BudgetCalculator.notifyOtherModules()` (`budget.js`, lines
241-250): the trip manager and the expense tracker load again. -/
def Application.notifyOtherModules (platform : Platform) (app : Application) :
    Except JsError Application :=
  let loaded := app.tripManager.loadTrips platform app.storage
  match loaded.raised with
  | some e => .error e
  | none =>
    match app.expenseTracker.loadData loaded.state.2 with
    | .error e => .error e
    | .ok (expenseTracker, storage2) =>
      .ok { app with tripManager := loaded.state.1, expenseTracker := expenseTracker,
                     storage := storage2 }

/-- The method `BudgetCalculator.saveTrips()` (`budget.js`, lines 235-239). -/
def Application.saveTrips (platform : Platform) (app : Application) (refused : Bool) :
    Except JsError Application :=
  match app.storage.setItem CONSTANTS.STORAGE_KEYS.TRIPS app.budgetCalc.trips refused with
  | .error e => .error e
  | .ok storage1 => Application.notifyOtherModules platform { app with storage := storage1 }

/-- The method `BudgetCalculator.handleTripSubmit(e)` (`budget.js`, lines
206-225) with the trip record built from the form. -/
def Application.handleTripSubmit (platform : Platform) (app : Application) (trip : JsonValue)
    (refused : Bool) : Except JsError Application :=
  match app.budgetCalc.trips.push trip with
  | .error e => .error e
  | .ok trips =>
    Application.saveTrips platform { app with budgetCalc := { trips := trips } } refused

/-- The method `BudgetCalculator.deleteTrip(tripId)` (`budget.js`, lines
227-233); `confirmed` is the answer to `confirm(...)`. -/
def Application.budgetDeleteTrip (platform : Platform) (app : Application) (tripId : String)
    (confirmed refused : Bool) : Except JsError Application :=
  if confirmed then
    match app.budgetCalc.trips.filter (propDiffers "id" tripId) with
    | .error e => .error e
    | .ok trips =>
      Application.saveTrips platform { app with budgetCalc := { trips := trips } } refused
  else .ok app

/-- The method `TripManager.deleteTrip(tripId)` run on the application. -/
def Application.managerDeleteTrip (platform : Platform) (app : Application) (tripId : String)
    (confirmed refusedExpenses refusedTrips : Bool) : Except JsError Application :=
  let done :=
    app.tripManager.deleteTrip platform app.storage tripId confirmed refusedExpenses refusedTrips
  match done.raised with
  | some e => .error e
  | none => .ok { app with tripManager := done.state.1, storage := done.state.2 }

/-- The listener of the trip selector (`tracker.js`, lines 32-36) with the
value selected. -/
def Application.selectTrip (app : Application) (value : String) : Application :=
  { app with expenseTracker := { app.expenseTracker with selectedTripId := some value } }

/-- The expense record of `tracker.js`, lines 188-196, with the fields the
controllers read: `id` and `tripId`. -/
def expenseRecord (id : String) (selectedTripId : Option String) (amount : ℚ) : JsonValue :=
  .obj [("id", .str id),
    ("tripId", match selectedTripId with
      | some tripId => .str tripId
      | none => .null),
    ("amount", .num amount)]

/-- The method `ExpenseTracker.handleExpenseSubmit(e)` (`tracker.js`, lines
185-203) with the identifier drawn and the amount typed. -/
def Application.handleExpenseSubmit (app : Application) (id : String) (amount : ℚ)
    (refused : Bool) : Except JsError Application :=
  let expense := expenseRecord id app.expenseTracker.selectedTripId amount
  match app.expenseTracker.expenses.push expense with
  | .error e => .error e
  | .ok expenses =>
    match app.storage.setItem CONSTANTS.STORAGE_KEYS.EXPENSES expenses refused with
    | .error e => .error e
    | .ok storage1 =>
      .ok { app with expenseTracker := { app.expenseTracker with expenses := expenses },
                     storage := storage1 }

/-- The method `ExpenseTracker.deleteExpense(expenseId)` (`tracker.js`, lines
205-211). -/
def Application.deleteExpense (app : Application) (expenseId : String)
    (confirmed refused : Bool) : Except JsError Application :=
  if confirmed then
    match app.expenseTracker.expenses.filter (propDiffers "id" expenseId) with
    | .error e => .error e
    | .ok expenses =>
      match app.storage.setItem CONSTANTS.STORAGE_KEYS.EXPENSES expenses refused with
      | .error e => .error e
      | .ok storage1 =>
        .ok { app with expenseTracker := { app.expenseTracker with expenses := expenses },
                       storage := storage1 }
  else .ok app

/-- The trip record of `budget.js`, lines 209-219, with the fields the
controllers read. -/
def tripRecord (id name : String) (budget : ℚ) : JsonValue :=
  .obj [("id", .str id), ("name", .str name), ("budget", .num budget), ("destinations", .arr [])]

/-- A browser store that holds two trips and an expense of each. -/
def sampleTripStore : LocalStorage :=
  { items := fun key =>
      if key = "tbc_trips" then
        some (.json (.arr [tripRecord "_t1" "Rome" 500, tripRecord "_t2" "Oslo" 300]))
      else if key = "tbc_expenses" then
        some (.json (.arr [expenseRecord "_e1" (some "_t1") 20,
          expenseRecord "_e2" (some "_t2") 30]))
      else none }

/-- An available storage service on `sampleTripStore`. -/
def sampleTripStorage : StorageService :=
  { available := true, localStorage := sampleTripStore }

/-- A trip manager that has loaded the trips of `sampleTripStore`. -/
def sampleTripManager : TripManager :=
  { trips := .arr [tripRecord "_t1" "Rome" 500, tripRecord "_t2" "Oslo" 300] }

/-- One operation of a controller. -/
inductive Operation where
  | createTrip (trip : JsonValue)
  | budgetDeleteTrip (tripId : String)
  | managerDeleteTrip (tripId : String)
  | selectTrip (value : String)
  | addExpense (id : String) (amount : ℚ)
  | deleteExpense (expenseId : String)

/-- The operation run on the application: every dialog is confirmed and the
browser refuses no write. -/
def Application.step (platform : Platform) (app : Application) :
    Operation → Except JsError Application
  | .createTrip trip => app.handleTripSubmit platform trip false
  | .budgetDeleteTrip tripId => app.budgetDeleteTrip platform tripId true false
  | .managerDeleteTrip tripId => app.managerDeleteTrip platform tripId true false false
  | .selectTrip value => .ok (app.selectTrip value)
  | .addExpense id amount => app.handleExpenseSubmit id amount false
  | .deleteExpense expenseId => app.deleteExpense expenseId true false

/-- The operations run one after the other; the first that raises ends the
run. -/
def Application.run (platform : Platform) (app : Application) :
    List Operation → Except JsError Application
  | [] => .ok app
  | op :: rest =>
    match app.step platform op with
    | .error e => .error e
    | .ok next => next.run platform rest

/-- The trips persisted, as a controller loads them. -/
def Application.persistedTrips (app : Application) : JsonValue :=
  app.storage.persistedOrEmpty CONSTANTS.STORAGE_KEYS.TRIPS

/-- The expenses persisted, as a controller loads them. -/
def Application.persistedExpenses (app : Application) : JsonValue :=
  app.storage.persistedOrEmpty CONSTANTS.STORAGE_KEYS.EXPENSES

/-- Referential integrity of the persisted expenses: the `tripId` of each is
the `id` of a persisted trip. -/
def Application.referentialIntegrity (app : Application) : Prop :=
  ∀ expenses trips, app.persistedExpenses = .arr expenses → app.persistedTrips = .arr trips →
    ∀ e ∈ expenses, ∃ t ∈ trips, ∃ id, e.prop "tripId" = some (.str id) ∧ t.prop "id" = some (.str id)

/-! ## Calls: the three branches of `getCachedOrFetch` -/

theorem freshEntry_of_lt (d : JsonValue) (t w now : Int) (h : now - t < w) :
    freshEntry (some { data := d, timestamp := t }) w now = some { data := d, timestamp := t } := by
  simp [freshEntry, h]

theorem freshEntry_of_le (d : JsonValue) (t w now : Int) (h : w ≤ now - t) :
    freshEntry (some { data := d, timestamp := t }) w now = none := by
  simp [freshEntry, not_lt.mpr h]

/-- A stale or absent entry stays so under the same window when the clock
does not go back. -/
theorem freshEntry_none_mono (cached : Option CacheEntry) (w now now2 : Int)
    (h : freshEntry cached w now = none) (hle : now ≤ now2) :
    freshEntry cached w now2 = none := by
  cases cached with
  | none => rfl
  | some c =>
    simp only [freshEntry] at h ⊢
    split at h
    · cases h
    · rename_i hlt
      have : ¬ (now2 - c.timestamp < w) := by omega
      simp [this]

theorem getCachedOrFetch_fresh (s : APIService) (k : String) (f : Producer) (w now : Int)
    (c : CacheEntry) (h : freshEntry (s.cache k) w now = some c) :
    s.getCachedOrFetch k f w now = (.data c.data, s) := by
  simp [APIService.getCachedOrFetch, h]

theorem getCachedOrFetch_joined (s : APIService) (k : String) (f : Producer) (w now : Int)
    (r : RequestId) (h : freshEntry (s.cache k) w now = none) (hr : s.activeRequests k = some r) :
    s.getCachedOrFetch k f w now = (.request r, s) := by
  simp [APIService.getCachedOrFetch, h, hr]

theorem getCachedOrFetch_started (s : APIService) (k : String) (f : Producer) (w now : Int)
    (h : freshEntry (s.cache k) w now = none) (hr : s.activeRequests k = none) :
    s.getCachedOrFetch k f w now =
      (.request s.nextId,
        { s with
          activeRequests := Function.update s.activeRequests k (some s.nextId)
          pending := { id := s.nextId, key := k, cached := s.cache k, fetchFn := f } :: s.pending
          nextId := s.nextId + 1
          invoked := f :: s.invoked }) := by
  simp [APIService.getCachedOrFetch, h, hr]

/-- A call never writes to the cache map. -/
theorem getCachedOrFetch_cache (s : APIService) (k : String) (f : Producer) (w now : Int) :
    (s.getCachedOrFetch k f w now).2.cache = s.cache := by
  cases h : freshEntry (s.cache k) w now <;> cases hr : s.activeRequests k <;>
    simp [APIService.getCachedOrFetch, h, hr]

/-- While a marker is registered for the key, a call changes nothing. -/
theorem getCachedOrFetch_of_marker (s : APIService) (k : String) (f : Producer) (w now : Int)
    (r : RequestId) (hr : s.activeRequests k = some r) :
    (s.getCachedOrFetch k f w now).2 = s := by
  cases h : freshEntry (s.cache k) w now <;> simp [APIService.getCachedOrFetch, h, hr]

/-! ## C1: fresh hit -/

/-- C1. A call on a key whose cache entry `(d, t)` is younger than the window
returns `d`, logs no producer invocation and leaves the whole state, hence the
cache map and the in-flight map, as it was; a second such call returns `d`
again. -/
theorem getCachedOrFetch_fresh_hit (s : APIService) (k : String) (f f2 : Producer)
    (w now now2 : Int) (d : JsonValue) (t : Int)
    (hentry : s.cache k = some { data := d, timestamp := t })
    (hfresh : now - t < w) (hfresh2 : now2 - t < w) :
    (s.getCachedOrFetch k f w now).1 = .data d ∧
    (s.getCachedOrFetch k f w now).2.invoked = s.invoked ∧
    (s.getCachedOrFetch k f w now).2.cache = s.cache ∧
    (s.getCachedOrFetch k f w now).2.activeRequests = s.activeRequests ∧
    (s.getCachedOrFetch k f w now).2 = s ∧
    ((s.getCachedOrFetch k f w now).2.getCachedOrFetch k f2 w now2).1 = .data d ∧
    ((s.getCachedOrFetch k f w now).2.getCachedOrFetch k f2 w now2).2.invoked = s.invoked := by
  have h1 : s.getCachedOrFetch k f w now = (.data d, s) := by
    have := getCachedOrFetch_fresh s k f w now _
      (by rw [hentry]; exact freshEntry_of_lt d t w now hfresh)
    simpa using this
  have h2 : s.getCachedOrFetch k f2 w now2 = (.data d, s) := by
    have := getCachedOrFetch_fresh s k f2 w now2 _
      (by rw [hentry]; exact freshEntry_of_lt d t w now2 hfresh2)
    simpa using this
  simp [h1, h2]

theorem getCachedOrFetch_fresh_hit_witness :
    sampleFresh.cache "rates_USD" = some { data := .obj [("USD", .num 1)], timestamp := 1000 } ∧
    ((2000 : Int) - 1000 < 300000 ∧ (3000 : Int) - 1000 < 300000) ∧
    (sampleFresh.getCachedOrFetch "rates_USD" (.custom "a") 300000 2000).1
      = .data (.obj [("USD", .num 1)]) ∧
    (sampleFresh.getCachedOrFetch "rates_USD" (.custom "a") 300000 2000).2 = sampleFresh :=
  have h := getCachedOrFetch_fresh_hit sampleFresh "rates_USD" (.custom "a") (.custom "b")
    300000 2000 3000 (.obj [("USD", .num 1)]) 1000 (by simp [sampleFresh])
    (by decide) (by decide)
  ⟨by simp [sampleFresh], ⟨by decide, by decide⟩, h.1, h.2.2.2.2.1⟩

/-! ## Settlement -/

theorem settle_of_find (s : APIService) (r : RequestId) (p : PendingRequest) (outcome : Settled)
    (now : Int) (hp : s.pending.find? (fun q => q.id == r) = some p) :
    s.settle r outcome now =
      some ((match outcome with
              | .ok data => thenHandler s p data now
              | .error error => catchHandler s p error).1,
        { (match outcome with
              | .ok data => thenHandler s p data now
              | .error error => catchHandler s p error).2 with
          pending := s.pending.filter (fun q => q.id != r)
          settled := Function.update s.settled r
            (some (match outcome with
              | .ok data => thenHandler s p data now
              | .error error => catchHandler s p error).1) }) := by
  cases outcome with
  | ok data => simp [APIService.settle, hp, thenHandler]
  | error e =>
    cases hc : p.cached with
    | none => simp [APIService.settle, hp, catchHandler, hc]
    | some c =>
      by_cases ht : c.data.truthy = true <;> simp [APIService.settle, hp, catchHandler, hc, ht]

/-- The `catch` handler deletes the marker and writes nothing else. -/
theorem catchHandler_state (s : APIService) (p : PendingRequest) (e : JsError) :
    (catchHandler s p e).2 =
      { s with activeRequests := Function.update s.activeRequests p.key none } := by
  cases hc : p.cached with
  | none => simp [catchHandler, hc]
  | some c => by_cases ht : c.data.truthy = true <;> simp [catchHandler, hc, ht]

/-! ## C10: the fetch wrapper and the HTTP status -/

/-- C10, as stated, fails: a response with status 204 has the `ok` flag true
and an empty body, on which `json()` rejects with a `SyntaxError`; `fetch`
raises that error and returns no parsed body. -/
theorem fetch_ok_response_without_body :
    APIService.fetch (.response true 204
        (.error { name := "SyntaxError", message := "Unexpected end of JSON input" }))
      = .error { name := "SyntaxError", message := "Unexpected end of JSON input" } ∧
    ∀ v, APIService.fetch (.response true 204
        (.error { name := "SyntaxError", message := "Unexpected end of JSON input" })) ≠ .ok v := by
  have h : APIService.fetch (.response true 204
        (.error { name := "SyntaxError", message := "Unexpected end of JSON input" }))
      = .error { name := "SyntaxError", message := "Unexpected end of JSON input" } := by
    simp [APIService.fetch, fetchCatch]
  refine ⟨h, ?_⟩
  intro v hv
  rw [h] at hv
  cases hv

/-- C10, amended. For a response whose `ok` flag is false, `fetch` raises a
plain error whose message is `HTTP Error: ` followed by the status in decimal,
whatever the body is, and so returns no parsed body.  For a response whose
`ok` flag is true, it returns the parsed body when `json()` resolves with one;
when `json()` rejects, it returns no body and raises the error of `json()`, or
the error `Request timed out` when that error is named `AbortError`. -/
theorem fetch_http_status (status : Nat) (json : Settled) (body : JsonValue) (e : JsError) :
    APIService.fetch (.response false status json)
      = .error { name := "Error", message := "HTTP Error: " ++ toString status } ∧
    (∀ v, APIService.fetch (.response false status json) ≠ .ok v) ∧
    APIService.fetch (.response true status (.ok body)) = .ok body ∧
    APIService.fetch (.response true status (.error e))
      = (if e.name = "AbortError" then .error { name := "Error", message := "Request timed out" }
         else .error e) ∧
    (∀ v, APIService.fetch (.response true status (.error e)) ≠ .ok v) := by
  have h : APIService.fetch (.response false status json)
      = .error { name := "Error", message := "HTTP Error: " ++ toString status } := by
    simp [APIService.fetch, fetchCatch, JsError.new]
  have h2 : APIService.fetch (.response true status (.error e))
      = (if e.name = "AbortError" then .error { name := "Error", message := "Request timed out" }
         else .error e) := by
    simp [APIService.fetch, fetchCatch, JsError.new]
  refine ⟨h, ?_, ?_, h2, ?_⟩
  · intro v hv
    rw [h] at hv
    cases hv
  · simp [APIService.fetch]
  · intro v hv
    rw [h2] at hv
    by_cases hname : e.name = "AbortError"
    · rw [if_pos hname] at hv
      cases hv
    · rw [if_neg hname] at hv
      cases hv

/-! ## C8: clearCache -/

/-- C8, as stated, fails: with a producer in flight, the in-flight map still
holds its marker after `clearCache()`. -/
theorem clearCache_keeps_marker :
    ¬ (samplePending.clearCache.cache = (fun _ => none) ∧
       samplePending.clearCache.activeRequests = (fun _ => none)) := by
  intro h
  have h2 := congrFun h.2 "rates_USD"
  simp [samplePending, APIService.clearCache, APIService.getExchangeRates,
    APIService.getCachedOrFetch, APIService.new, freshEntry] at h2

/-- C8, amended. After `clearCache()` the cache map is empty and the in-flight
map, like the rest of the state, is what it was. -/
theorem clearCache_clears_cache_only (s : APIService) :
    s.clearCache.cache = (fun _ => none) ∧
    s.clearCache.activeRequests = s.activeRequests ∧
    s.clearCache.pending = s.pending ∧
    s.clearCache.invoked = s.invoked :=
  ⟨rfl, rfl, rfl, rfl⟩

/-! ## C3: stale data on failure -/

/-- The fallback of lines 71-74 for truthy data: when the entry captured at
the start of the refresh holds truthy `d`, a failed producer makes the request
resolve with `d`. -/
theorem settle_failure_truthy (s : APIService) (r : RequestId) (p : PendingRequest)
    (e : JsError) (now : Int) (c : CacheEntry)
    (hp : s.pending.find? (fun q => q.id == r) = some p)
    (hc : p.cached = some c) (ht : c.data.truthy = true) :
    (s.settle r (.error e) now).map Prod.fst = some (.ok c.data) := by
  simp [settle_of_find s r p _ now hp, catchHandler, hc, ht]

/-- C3 at its failing inputs. The cache holds `0`, `false`, `null` or the empty
string for the key, stored at clock value 0; a refresh is started at 360000
under a window of 300000 and its producer fails with `e`: the request is
rejected with `e`, the cached data is not returned. -/
theorem stale_fallback_rejects_falsy (e : JsError) :
    (((sampleStale (.num 0)).getCachedOrFetch "rates_USD" (.custom "p") 300000 360000).2.settle
        0 (.error e) 360001).map Prod.fst = some (.error e) ∧
    (((sampleStale (.bool false)).getCachedOrFetch "rates_USD" (.custom "p") 300000 360000).2.settle
        0 (.error e) 360001).map Prod.fst = some (.error e) ∧
    (((sampleStale .null).getCachedOrFetch "rates_USD" (.custom "p") 300000 360000).2.settle
        0 (.error e) 360001).map Prod.fst = some (.error e) ∧
    (((sampleStale (.str "")).getCachedOrFetch "rates_USD" (.custom "p") 300000 360000).2.settle
        0 (.error e) 360001).map Prod.fst = some (.error e) := by
  refine ⟨?_, ?_, ?_, ?_⟩ <;>
    simp [sampleStale, APIService.getCachedOrFetch, APIService.new, freshEntry,
      APIService.settle, catchHandler, JsonValue.truthy]

/-! ## C2: coalescing -/

/-- Calls on a key whose marker is registered and whose entry is not fresh all
return the registered promise and leave the state as it is. -/
theorem callMany_joined (s : APIService) (k : String) (r : RequestId) (calls : List Call)
    (hmark : s.activeRequests k = some r)
    (hstale : ∀ c ∈ calls, freshEntry (s.cache k) c.duration c.now = none) :
    s.callMany k calls = (List.replicate calls.length (.request r), s) := by
  induction calls with
  | nil => rfl
  | cons c rest ih =>
    have hc := getCachedOrFetch_joined s k c.fetchFn c.duration c.now r
      (hstale c (List.mem_cons_self _ _)) hmark
    have hrest := ih (fun c2 h2 => hstale c2 (List.mem_cons_of_mem _ h2))
    simp [APIService.callMany, hc, hrest, List.replicate_succ]

/-- C2. The key has no fresh entry under the window `w` and no marker; `first`
and then the callers of `later` call `getCachedOrFetch` on it with the window
`w` while the clock does not go back, before the producer settles. Then only
the producer of the first call is invoked, every call returns the promise the
first call registered as marker, and however and whenever the producer
settles, that promise settles one way and each caller receives that very
result. -/
theorem coalescing (s : APIService) (k : String) (w : Int) (first : Call) (later : List Call)
    (hfirst : first.duration = w) (hlater : ∀ c ∈ later, c.duration = w)
    (hstale : freshEntry (s.cache k) w first.now = none)
    (hidle : s.activeRequests k = none)
    (hclock : List.Chain (fun a b => a ≤ b) first.now (later.map Call.now)) :
    (s.callMany k (first :: later)).2.invoked = first.fetchFn :: s.invoked ∧
    (s.callMany k (first :: later)).1 = List.replicate (later.length + 1) (.request s.nextId) ∧
    (s.callMany k (first :: later)).2.activeRequests k = some s.nextId ∧
    ∀ (outcome : Settled) (now : Int), ∃ res s2,
      (s.callMany k (first :: later)).2.settle s.nextId outcome now = some (res, s2) ∧
      ∀ ret ∈ (s.callMany k (first :: later)).1, s2.received ret = some res := by
  subst hfirst
  have hstart := getCachedOrFetch_started s k first.fetchFn first.duration first.now hstale hidle
  have hge : ∀ c ∈ later, first.now ≤ c.now := by
    have hpw := (List.chain_iff_pairwise.mp hclock)
    intro c hc
    exact (List.pairwise_cons.mp hpw).1 c.now (List.mem_map_of_mem _ hc)
  have hjoin := callMany_joined (s.getCachedOrFetch k first.fetchFn first.duration first.now).2
    k s.nextId later (by simp [hstart]) (by
      intro c hc
      rw [getCachedOrFetch_cache, hlater c hc]
      exact freshEntry_none_mono _ _ _ _ hstale (hge c hc))
  have hall : s.callMany k (first :: later) =
      (List.replicate (later.length + 1) (.request s.nextId),
        (s.getCachedOrFetch k first.fetchFn first.duration first.now).2) := by
    rw [APIService.callMany]
    simp only [hjoin, List.replicate_succ]
    rw [hstart]
  rw [hall]
  refine ⟨by simp [hstart], rfl, by simp [hstart], ?_⟩
  intro outcome now
  have hfind : (s.getCachedOrFetch k first.fetchFn first.duration first.now).2.pending.find?
      (fun q => q.id == s.nextId) =
      some { id := s.nextId, key := k, cached := s.cache k, fetchFn := first.fetchFn } := by
    simp [hstart]
  rw [settle_of_find _ _ _ outcome now hfind]
  refine ⟨_, _, rfl, ?_⟩
  intro ret hret
  rw [List.eq_of_mem_replicate hret]
  simp [APIService.received]

theorem coalescing_witness :
    (freshEntry (APIService.new.cache "rates_USD") 300000 0 = none ∧
      APIService.new.activeRequests "rates_USD" = none) ∧
    (APIService.new.callMany "rates_USD"
        ({ fetchFn := .custom "first", duration := 300000, now := 0 } :: sampleLater)).2.invoked
      = [.custom "first"] ∧
    (APIService.new.callMany "rates_USD"
        ({ fetchFn := .custom "first", duration := 300000, now := 0 } :: sampleLater)).1
      = [.request 0, .request 0, .request 0, .request 0] :=
  have h := coalescing APIService.new "rates_USD" 300000
    { fetchFn := .custom "first", duration := 300000, now := 0 } sampleLater rfl
    (by simp [sampleLater]) rfl rfl (by simp [sampleLater])
  ⟨⟨rfl, rfl⟩, h.1, h.2.1⟩

/-! ## C6: successful refresh -/

/-- C6. When the producer started for the key `k` succeeds with `d` and its
handler runs at clock value `t`, the request resolves with `d`, which every
caller holding it receives, the cache entry of `k` is exactly `(d, t)`, the
marker of `k` is gone, and a call on `k` at any time `t2` with `t2 - t < w`
returns `d`, invokes no producer and changes nothing. -/
theorem settle_success (s : APIService) (r : RequestId) (p : PendingRequest) (k : String)
    (d : JsonValue) (t : Int)
    (hp : s.pending.find? (fun q => q.id == r) = some p) (hk : p.key = k) :
    ∃ s2, s.settle r (.ok d) t = some (.ok d, s2) ∧
      s2.cache k = some { data := d, timestamp := t } ∧
      s2.activeRequests k = none ∧
      s2.received (.request r) = some (.ok d) ∧
      ∀ (f : Producer) (w t2 : Int), t2 - t < w →
        s2.getCachedOrFetch k f w t2 = (.data d, s2) ∧
        (s2.getCachedOrFetch k f w t2).2.invoked = s2.invoked := by
  subst hk
  rw [settle_of_find s r p _ t hp]
  refine ⟨_, rfl, ?_, ?_, ?_, ?_⟩
  · simp [thenHandler]
  · simp [thenHandler]
  · simp [APIService.received, thenHandler]
  · intro f w t2 hlt
    have hfresh := getCachedOrFetch_fresh
      { (thenHandler s p d t).2 with
        pending := s.pending.filter (fun q => q.id != r)
        settled := Function.update s.settled r (some (thenHandler s p d t).1) }
      p.key f w t2 { data := d, timestamp := t }
      (by simp [thenHandler, freshEntry, hlt])
    simp only at hfresh
    rw [hfresh]
    exact ⟨rfl, rfl⟩

theorem settle_success_witness :
    samplePending.pending.find? (fun q => q.id == 0)
      = some { id := 0, key := "rates_USD", cached := none,
               fetchFn := .httpGet "https://api.exchangerate-api.com/v4/latest/USD" } ∧
    ∃ s2, samplePending.settle 0 (.ok (.obj [("USD", .num 1)])) 7
        = some (.ok (.obj [("USD", .num 1)]), s2) ∧
      s2.cache "rates_USD" = some { data := .obj [("USD", .num 1)], timestamp := 7 } ∧
      s2.activeRequests "rates_USD" = none :=
  have hp : samplePending.pending.find? (fun q => q.id == 0)
      = some { id := 0, key := "rates_USD", cached := none,
               fetchFn := .httpGet "https://api.exchangerate-api.com/v4/latest/USD" } := by
    simp [samplePending, APIService.getExchangeRates, APIService.getCachedOrFetch, APIService.new,
      freshEntry, APIService.exchangeRateAPI]
  have h := settle_success samplePending 0 _ "rates_USD" (.obj [("USD", .num 1)]) 7 hp rfl
  ⟨hp, h.elim (fun s2 hs => ⟨s2, hs.1, hs.2.1, hs.2.2.1⟩)⟩

/-! ## C9: a stale entry triggers one refresh -/

theorem rates_key_USD : "rates_" ++ "USD" = "rates_USD" := by decide

theorem getExchangeRates_USD (s : APIService) (now : Int) :
    s.getExchangeRates "USD" now =
      s.getCachedOrFetch "rates_USD"
        (.httpGet "https://api.exchangerate-api.com/v4/latest/USD") 300000 now := by
  have hurl : APIService.exchangeRateAPI ++ "/" ++ "USD"
      = "https://api.exchangerate-api.com/v4/latest/USD" := by decide
  simp only [APIService.getExchangeRates, rates_key_USD, hurl]
  rfl

/-- C9. A call on a key that has an entry `(d, t)` with `now - t >= w` and no
marker invokes its producer, once: the invocation log grows by that producer
alone, and the call returns the new promise. For `getExchangeRates` of `USD`:
after the producer of `rates_USD` succeeded with `rates` at clock value `t0`,
a call one minute later returns `rates` and leaves the state, hence the number
of network calls, as it is, and a call six minutes after `t0` invokes one
producer, the HTTP GET of the rates of `USD`: one more network call. -/
theorem stale_entry_refreshes_once (s : APIService) (k : String) (f : Producer) (w now : Int)
    (d : JsonValue) (t : Int)
    (hentry : s.cache k = some { data := d, timestamp := t })
    (hidle : s.activeRequests k = none) (hstale : w ≤ now - t)
    (s0 s2 : APIService) (r : RequestId) (p : PendingRequest) (rates : JsonValue) (t0 : Int)
    (hp : s0.pending.find? (fun q => q.id == r) = some p) (hkey : p.key = "rates_USD")
    (hsettle : s0.settle r (.ok rates) t0 = some (.ok rates, s2)) :
    ((s.getCachedOrFetch k f w now).1 = .request s.nextId ∧
      (s.getCachedOrFetch k f w now).2.invoked = f :: s.invoked) ∧
    s2.getExchangeRates "USD" (t0 + 60000) = (.data rates, s2) ∧
    ((s2.getExchangeRates "USD" (t0 + 60000)).2.getExchangeRates "USD" (t0 + 360000)).1
      = .request s2.nextId ∧
    ((s2.getExchangeRates "USD" (t0 + 60000)).2.getExchangeRates "USD" (t0 + 360000)).2.invoked
      = .httpGet "https://api.exchangerate-api.com/v4/latest/USD" :: s2.invoked ∧
    ((s2.getExchangeRates "USD" (t0 + 60000)).2.getExchangeRates "USD" (t0 + 360000)).2.networkCalls
      = s2.networkCalls + 1 := by
  have hgen := getCachedOrFetch_started s k f w now
    (by rw [hentry]; exact freshEntry_of_le d t w now hstale) hidle
  have hcache : s2.cache "rates_USD" = some { data := rates, timestamp := t0 } := by
    rw [settle_of_find s0 r p (.ok rates) t0 hp] at hsettle
    simp only [Option.some.injEq, Prod.mk.injEq] at hsettle
    rw [← hsettle.2]
    simp [thenHandler, hkey]
  have hmark : s2.activeRequests "rates_USD" = none := by
    rw [settle_of_find s0 r p (.ok rates) t0 hp] at hsettle
    simp only [Option.some.injEq, Prod.mk.injEq] at hsettle
    rw [← hsettle.2]
    simp [thenHandler, hkey]
  have h1 : s2.getExchangeRates "USD" (t0 + 60000) = (.data rates, s2) := by
    rw [getExchangeRates_USD]
    exact getCachedOrFetch_fresh s2 "rates_USD" _ 300000 (t0 + 60000)
      { data := rates, timestamp := t0 }
      (by rw [hcache]; exact freshEntry_of_lt rates t0 300000 _ (by omega))
  have h6 := getCachedOrFetch_started s2 "rates_USD"
    (.httpGet "https://api.exchangerate-api.com/v4/latest/USD") 300000 (t0 + 360000)
    (by rw [hcache]; exact freshEntry_of_le rates t0 300000 _ (by omega)) hmark
  refine ⟨⟨by rw [hgen], by rw [hgen]⟩, h1, ?_, ?_, ?_⟩
  · rw [h1, getExchangeRates_USD, h6]
  · rw [h1, getExchangeRates_USD, h6]
  · rw [h1, getExchangeRates_USD, h6]
    simp [APIService.networkCalls, Producer.isNetworkCall]

theorem stale_entry_refreshes_once_witness :
    ((sampleStale .null).cache "rates_USD" = some { data := .null, timestamp := 0 } ∧
      (sampleStale .null).activeRequests "rates_USD" = none ∧ (300000 : Int) ≤ 360000 - 0) ∧
    ((sampleStale .null).getCachedOrFetch "rates_USD" (.custom "p") 300000 360000).2.invoked
      = [.custom "p"] ∧
    ∃ s2, samplePending.settle 0 (.ok (.obj [("USD", .num 1)])) 7
        = some (.ok (.obj [("USD", .num 1)]), s2) ∧
      s2.getExchangeRates "USD" (7 + 60000) = (.data (.obj [("USD", .num 1)]), s2) ∧
      ((s2.getExchangeRates "USD" (7 + 60000)).2.getExchangeRates "USD" (7 + 360000)).2.networkCalls
        = s2.networkCalls + 1 :=
  have hentry : (sampleStale .null).cache "rates_USD" = some { data := .null, timestamp := 0 } := by
    simp [sampleStale]
  have hp : samplePending.pending.find? (fun q => q.id == 0)
      = some { id := 0, key := "rates_USD", cached := none,
               fetchFn := .httpGet "https://api.exchangerate-api.com/v4/latest/USD" } := by
    simp [samplePending, APIService.getExchangeRates, APIService.getCachedOrFetch, APIService.new,
      freshEntry, APIService.exchangeRateAPI]
  have hs := settle_of_find samplePending 0 _ (.ok (.obj [("USD", .num 1)])) 7 hp
  have h := stale_entry_refreshes_once (sampleStale .null) "rates_USD" (.custom "p") 300000 360000
    .null 0 hentry rfl (by decide) samplePending _ 0 _ (.obj [("USD", .num 1)]) 7 hp rfl hs
  ⟨⟨hentry, rfl, by decide⟩, h.1.2, _, hs, h.2.1, h.2.2.2.2⟩

/-! ## Reachable states are consistent -/

theorem consistent_new : Consistent APIService.new where
  idsBelow := by simp [APIService.new]
  idsNodup := by simp [APIService.new]
  keysNodup := by simp [APIService.new]
  marker := by simp [APIService.new]
  captured := by simp [APIService.new]

theorem consistent_call (s : APIService) (k : String) (f : Producer) (w now : Int)
    (h : Consistent s) : Consistent (s.getCachedOrFetch k f w now).2 := by
  cases hf : freshEntry (s.cache k) w now with
  | some c => rw [getCachedOrFetch_fresh s k f w now c hf]; exact h
  | none =>
    cases hr : s.activeRequests k with
    | some r => rw [getCachedOrFetch_joined s k f w now r hf hr]; exact h
    | none =>
      rw [getCachedOrFetch_started s k f w now hf hr]
      have hfree : ∀ p ∈ s.pending, p.key ≠ k := by
        intro p hp hk
        have := (h.marker k p.id).mpr ⟨p, hp, hk, rfl⟩
        rw [hr] at this
        cases this
      constructor
      · intro p hp
        simp only [List.mem_cons] at hp
        rcases hp with rfl | hp
        · simp
        · exact Nat.lt_succ_of_lt (h.idsBelow p hp)
      · simp only [List.map_cons, List.nodup_cons]
        refine ⟨?_, h.idsNodup⟩
        intro hmem
        obtain ⟨p, hp, hid⟩ := List.mem_map.mp hmem
        have hlt := h.idsBelow p hp
        rw [hid] at hlt
        exact Nat.lt_irrefl _ hlt
      · simp only [List.map_cons, List.nodup_cons]
        refine ⟨?_, h.keysNodup⟩
        intro hmem
        obtain ⟨p, hp, hkey⟩ := List.mem_map.mp hmem
        exact hfree p hp hkey
      · intro k2 r2
        simp only [List.mem_cons]
        by_cases hk : k2 = k
        · subst hk
          simp only [Function.update_same, Option.some.injEq]
          constructor
          · intro hr2
            exact ⟨_, Or.inl rfl, rfl, hr2⟩
          · rintro ⟨p, hp | hp, hkey, hid⟩
            · subst hp; exact hid
            · exact absurd hkey (hfree p hp)
        · simp only [Function.update_noteq hk]
          rw [h.marker k2 r2]
          constructor
          · rintro ⟨p, hp, hkey, hid⟩
            exact ⟨p, Or.inr hp, hkey, hid⟩
          · rintro ⟨p, hp | hp, hkey, hid⟩
            · subst hp; exact absurd hkey.symm hk
            · exact ⟨p, hp, hkey, hid⟩
      · intro p hp
        simp only [List.mem_cons] at hp
        rcases hp with rfl | hp
        · exact Or.inl rfl
        · exact h.captured p hp

/-- In a consistent state the started producer of a promise is found by the
identity of the promise. -/
theorem find_of_mem (s : APIService) (h : Consistent s) (p : PendingRequest)
    (hp : p ∈ s.pending) : s.pending.find? (fun q => q.id == p.id) = some p := by
  cases hf : s.pending.find? (fun q => q.id == p.id) with
  | none =>
    have := List.find?_eq_none.mp hf p hp
    simp at this
  | some q =>
    have hq := List.mem_of_find?_eq_some hf
    have hid : q.id = p.id := by simpa using List.find?_some hf
    rw [List.inj_on_of_nodup_map h.idsNodup hq hp hid]

theorem consistent_settle (s s2 : APIService) (r : RequestId) (outcome result : Settled)
    (now : Int) (h : Consistent s) (hs : s.settle r outcome now = some (result, s2)) :
    Consistent s2 := by
  cases hf : s.pending.find? (fun q => q.id == r) with
  | none => simp [APIService.settle, hf] at hs
  | some p =>
    have hp := List.mem_of_find?_eq_some hf
    have hid : p.id = r := by simpa using List.find?_some hf
    rw [settle_of_find s r p outcome now hf] at hs
    simp only [Option.some.injEq, Prod.mk.injEq] at hs
    obtain ⟨-, rfl⟩ := hs
    have hact : (match outcome with
        | .ok data => thenHandler s p data now
        | .error error => catchHandler s p error).2.activeRequests
          = Function.update s.activeRequests p.key none := by
      cases outcome with
      | ok d => rfl
      | error e => rw [catchHandler_state]
    have hnext : (match outcome with
        | .ok data => thenHandler s p data now
        | .error error => catchHandler s p error).2.nextId = s.nextId := by
      cases outcome with
      | ok d => rfl
      | error e => rw [catchHandler_state]
    have hcache : ∀ k, k ≠ p.key → (match outcome with
        | .ok data => thenHandler s p data now
        | .error error => catchHandler s p error).2.cache k = s.cache k := by
      intro k hk
      cases outcome with
      | ok d => simp [thenHandler, Function.update_noteq hk]
      | error e => rw [catchHandler_state]
    have hmem : ∀ q, q ∈ s.pending.filter (fun q => q.id != r) ↔ q ∈ s.pending ∧ q.id ≠ r := by
      intro q
      simp [List.mem_filter]
    have hkey : ∀ q ∈ s.pending, q.id ≠ r → q.key ≠ p.key := by
      intro q hq hne hk
      have := List.inj_on_of_nodup_map h.keysNodup hq hp hk
      exact hne (this ▸ hid)
    constructor
    · intro q hq
      simp only [hmem] at hq
      simp only [hnext]
      exact h.idsBelow q hq.1
    · exact h.idsNodup.sublist ((List.filter_sublist _).map _)
    · exact h.keysNodup.sublist ((List.filter_sublist _).map _)
    · intro k2 r2
      simp only [hact, hmem]
      by_cases hk : k2 = p.key
      · subst hk
        simp only [Function.update_same]
        constructor
        · intro hcontra; cases hcontra
        · rintro ⟨q, ⟨hq, hne⟩, hqk, -⟩
          exact absurd hqk (hkey q hq hne)
      · simp only [Function.update_noteq hk]
        rw [h.marker k2 r2]
        constructor
        · rintro ⟨q, hq, hqk, hqid⟩
          refine ⟨q, ⟨hq, ?_⟩, hqk, hqid⟩
          intro hqr
          have := List.inj_on_of_nodup_map h.idsNodup hq hp (hqr.trans hid.symm)
          exact hk (hqk.symm.trans (this ▸ rfl))
        · rintro ⟨q, ⟨hq, -⟩, hqk, hqid⟩
          exact ⟨q, hq, hqk, hqid⟩
    · intro q hq
      simp only [hmem] at hq
      simp only
      rw [hcache q.key (hkey q hq.1 hq.2)]
      exact h.captured q hq.1

theorem consistent_clearCache (s : APIService) (h : Consistent s) : Consistent s.clearCache where
  idsBelow := h.idsBelow
  idsNodup := h.idsNodup
  keysNodup := h.keysNodup
  marker := h.marker
  captured := fun _ _ => Or.inr rfl

theorem reachable_consistent (s : APIService) (h : Reachable s) : Consistent s := by
  induction h with
  | init => exact consistent_new
  | call key fetchFn duration now _ ih => exact consistent_call _ key fetchFn duration now ih
  | settle r outcome now _ hs ih => exact consistent_settle _ _ r outcome _ now ih hs
  | clearCache _ ih => exact consistent_clearCache _ ih

/-! ## C4: one outstanding producer per key -/

theorem filter_key_length_le_one (l : List PendingRequest) (k : String)
    (h : (l.map PendingRequest.key).Nodup) :
    (l.filter (fun p => p.key == k)).length ≤ 1 := by
  induction l with
  | nil => simp
  | cons a l ih =>
    simp only [List.map_cons, List.nodup_cons] at h
    by_cases ha : a.key = k
    · have hnil : l.filter (fun p => p.key == k) = [] := by
        rw [List.filter_eq_nil_iff]
        intro q hq hqk
        have hqk2 : q.key = k := by simpa using hqk
        exact h.1 (List.mem_map.mpr ⟨q, hq, hqk2.trans ha.symm⟩)
      simp [List.filter_cons, ha, hnil]
    · have := ih h.2
      simpa [List.filter_cons, ha] using this

/-- C4. In every state reachable from the constructed service through calls of
`getCachedOrFetch`, settlements of started producers and `clearCache`: each
key has at most one started and unsettled producer; `activeRequests` maps a key
to a promise exactly when the started and unsettled producer of that promise
has this key; and the settlement of a started producer, with success or
failure, takes place, removes the marker of its key and leaves no producer
outstanding for that key. -/
theorem one_outstanding_per_key (s : APIService) (h : Reachable s) :
    (∀ k, (s.pending.filter (fun p => p.key == k)).length ≤ 1) ∧
    (∀ k r, s.activeRequests k = some r ↔ ∃ p ∈ s.pending, p.key = k ∧ p.id = r) ∧
    (∀ p ∈ s.pending, ∀ (outcome : Settled) (now : Int), ∃ res s2,
      s.settle p.id outcome now = some (res, s2) ∧
      s2.activeRequests p.key = none ∧
      s2.pending.filter (fun q => q.key == p.key) = []) := by
  have hc := reachable_consistent s h
  refine ⟨fun k => filter_key_length_le_one _ k hc.keysNodup, hc.marker, ?_⟩
  intro p hp outcome now
  have hf := find_of_mem s hc p hp
  have hs := settle_of_find s p.id p outcome now hf
  refine ⟨_, _, hs, ?_, ?_⟩
  · cases outcome with
    | ok d => simp [thenHandler]
    | error e => simp [catchHandler_state]
  · rw [List.filter_eq_nil_iff]
    intro q hq hqk
    simp only [List.mem_filter, bne_iff_ne, ne_eq] at hq
    have hqk2 : q.key = p.key := by simpa using hqk
    have := List.inj_on_of_nodup_map hc.keysNodup hq.1 hp hqk2
    exact hq.2 (this ▸ rfl)

theorem one_outstanding_per_key_witness :
    Reachable samplePending ∧
    (samplePending.pending.filter (fun p => p.key == "rates_USD")).length ≤ 1 ∧
    (samplePending.activeRequests "rates_USD" = some 0 ↔
      ∃ p ∈ samplePending.pending, p.key = "rates_USD" ∧ p.id = 0) :=
  have hr : Reachable samplePending := Reachable.call _ _ _ 0 Reachable.init
  have h := one_outstanding_per_key samplePending hr
  ⟨hr, h.1 "rates_USD", h.2.1 "rates_USD" 0⟩

/-! ## C5: failure with no prior entry -/

/-- C5. In a reachable state, let `p` be a started producer whose key had no
cache entry when the refresh started (the `cached` its handlers captured is
absent). When it fails with `e`, the request is rejected with that `e`, which
every caller holding the request receives, the cache has no entry for the key,
and the marker of the key is deleted. -/
theorem failure_without_entry (s : APIService) (h : Reachable s) (p : PendingRequest)
    (hp : p ∈ s.pending) (hnone : p.cached = none) (e : JsError) (now : Int) :
    ∃ s2, s.settle p.id (.error e) now = some (.error e, s2) ∧
      s2.received (.request p.id) = some (.error e) ∧
      s2.cache p.key = none ∧
      s2.activeRequests p.key = none := by
  have hc := reachable_consistent s h
  have hs := settle_of_find s p.id p (.error e) now (find_of_mem s hc p hp)
  have hres : (catchHandler s p e).1 = .error e := by simp [catchHandler, hnone]
  simp only [hres, catchHandler_state] at hs
  refine ⟨_, hs, ?_, ?_, ?_⟩
  · simp [APIService.received]
  · rcases hc.captured p hp with h1 | h1
    · simpa [hnone] using h1
    · exact h1
  · simp

theorem failure_without_entry_witness :
    Reachable samplePending ∧
    ∃ s2, samplePending.settle 0 (.error (JsError.new "Request timed out")) 10000
        = some (.error (JsError.new "Request timed out"), s2) ∧
      s2.cache "rates_USD" = none ∧ s2.activeRequests "rates_USD" = none :=
  have hr : Reachable samplePending := Reachable.call _ _ _ 0 Reachable.init
  have hp : ({ id := 0, key := "rates_USD", cached := none,
               fetchFn := .httpGet "https://api.exchangerate-api.com/v4/latest/USD" }
              : PendingRequest) ∈ samplePending.pending := by
    simp [samplePending, APIService.getExchangeRates, APIService.getCachedOrFetch, APIService.new,
      freshEntry, APIService.exchangeRateAPI]
  have h := failure_without_entry samplePending hr _ hp rfl (JsError.new "Request timed out") 10000
  ⟨hr, h.elim (fun s2 hs => ⟨s2, hs.1, hs.2.2.1, hs.2.2.2⟩)⟩

/-! ## C7: a failed refresh leaves the cache alone -/

/-- Calls on a key whose marker is registered leave the state as it is. -/
theorem callMany_of_marker (s : APIService) (k : String) (r : RequestId) (calls : List Call)
    (hmark : s.activeRequests k = some r) : (s.callMany k calls).2 = s := by
  induction calls with
  | nil => rfl
  | cons c rest ih =>
    simp only [APIService.callMany]
    rw [getCachedOrFetch_of_marker s k c.fetchFn c.duration c.now r hmark]
    exact ih

/-- C7. The key has no fresh entry under the window `w` and no marker; the
call `first` starts a refresh, the calls `during` on the key come while it is
pending, and the producer fails with `e` at a clock value `now1` not before
the start. Then the cache map is, for every key, what it was before the
refresh started; at no later clock value is the entry of the key fresh under
`w`; and a call with the window `w` at such a clock value invokes its producer
and returns a new promise. -/
theorem failed_refresh_keeps_cache (s : APIService) (k : String) (w : Int) (first : Call)
    (during : List Call) (e : JsError) (now1 : Int)
    (hfirst : first.duration = w)
    (hstale : freshEntry (s.cache k) w first.now = none)
    (hidle : s.activeRequests k = none)
    (hclock : first.now ≤ now1) :
    ∃ res s2, (s.callMany k (first :: during)).2.settle s.nextId (.error e) now1 = some (res, s2) ∧
      s2.cache = s.cache ∧
      (∀ now2, now1 ≤ now2 → freshEntry (s2.cache k) w now2 = none) ∧
      (∀ (f2 : Producer) (now2 : Int), now1 ≤ now2 →
        (s2.getCachedOrFetch k f2 w now2).1 = .request s2.nextId ∧
        (s2.getCachedOrFetch k f2 w now2).2.invoked = f2 :: s2.invoked) := by
  subst hfirst
  have hstart := getCachedOrFetch_started s k first.fetchFn first.duration first.now hstale hidle
  have hall : (s.callMany k (first :: during)).2
      = (s.getCachedOrFetch k first.fetchFn first.duration first.now).2 := by
    simp only [APIService.callMany]
    exact callMany_of_marker _ k s.nextId during (by simp [hstart])
  have hfind : (s.callMany k (first :: during)).2.pending.find? (fun q => q.id == s.nextId) =
      some { id := s.nextId, key := k, cached := s.cache k, fetchFn := first.fetchFn } := by
    rw [hall]
    simp [hstart]
  have hs := settle_of_find _ _ _ (.error e) now1 hfind
  simp only [catchHandler_state] at hs
  have hcache : (s.callMany k (first :: during)).2.cache = s.cache := by
    rw [hall, getCachedOrFetch_cache]
  have hfresh : ∀ now2, now1 ≤ now2 → freshEntry (s.cache k) first.duration now2 = none :=
    fun now2 h2 => freshEntry_none_mono _ _ _ _ hstale (le_trans hclock h2)
  refine ⟨_, _, hs, hcache, ?_, ?_⟩
  · intro now2 h2
    simp only [hcache]
    exact hfresh now2 h2
  · intro f2 now2 h2
    have h3 := getCachedOrFetch_started
      { (s.callMany k (first :: during)).2 with
        activeRequests := Function.update (s.callMany k (first :: during)).2.activeRequests k none
        pending := (s.callMany k (first :: during)).2.pending.filter (fun q => q.id != s.nextId)
        settled := Function.update (s.callMany k (first :: during)).2.settled s.nextId
          (some (catchHandler (s.callMany k (first :: during)).2
            { id := s.nextId, key := k, cached := s.cache k, fetchFn := first.fetchFn } e).1) }
      k f2 first.duration now2
      (by simp only [hcache]; exact hfresh now2 h2) (by simp)
    simp only at h3
    rw [h3]
    exact ⟨rfl, rfl⟩

theorem failed_refresh_keeps_cache_witness :
    (freshEntry ((sampleStale (.str "EUR")).cache "rates_USD") 300000 360000 = none ∧
      (sampleStale (.str "EUR")).activeRequests "rates_USD" = none ∧ (360000 : Int) ≤ 370000) ∧
    ∃ res s2, ((sampleStale (.str "EUR")).callMany "rates_USD"
        ({ fetchFn := .custom "first", duration := 300000, now := 360000 } :: sampleDuring)).2.settle
          0 (.error (JsError.new "HTTP Error: 500")) 370000 = some (res, s2) ∧
      s2.cache = (sampleStale (.str "EUR")).cache :=
  have hst : freshEntry ((sampleStale (.str "EUR")).cache "rates_USD") 300000 360000 = none := by
    simp [sampleStale, freshEntry]
  have h := failed_refresh_keeps_cache (sampleStale (.str "EUR")) "rates_USD" 300000
    { fetchFn := .custom "first", duration := 300000, now := 360000 } sampleDuring
    (JsError.new "HTTP Error: 500") 370000 rfl hst rfl (by decide)
  ⟨⟨hst, rfl, by decide⟩, h.elim (fun res hres => hres.elim (fun s2 hs => ⟨res, s2, hs.1, hs.2.1⟩))⟩

/-! ## C11: the failure kinds of the fetch wrapper -/

theorem timed_out_ne_http_error (status : Nat) :
    "Request timed out" ≠ "HTTP Error: " ++ toString status := by
  intro h
  have hdata := congrArg String.data h
  simp [String.data_append] at hdata

/-- C11. The timer of the wrapper is set to 10000 ms. When the underlying call
rejects with an error named `AbortError`, `fetch` raises a plain error with the
message `Request timed out`; that message, and so that error, differs from the
one raised for any HTTP status; and an error of any other name, raised by the
underlying call or by the reading of the body, is raised again as it is. -/
theorem fetch_failure_kinds (e : JsError) (status status2 : Nat) (json : Settled) :
    APIService.timeout = 10000 ∧
    (e.name = "AbortError" →
      APIService.fetch (.rejected e) = .error { name := "Error", message := "Request timed out" }) ∧
    ("Request timed out" ≠ "HTTP Error: " ++ toString status ∧
      APIService.fetch (.rejected { name := "AbortError", message := e.message })
        ≠ APIService.fetch (.response false status json)) ∧
    (e.name ≠ "AbortError" →
      APIService.fetch (.rejected e) = .error e ∧
      APIService.fetch (.response true status2 (.error e)) = .error e) := by
  refine ⟨rfl, ?_, ⟨timed_out_ne_http_error status, ?_⟩, ?_⟩
  · intro hname
    simp [APIService.fetch, fetchCatch, hname, JsError.new]
  · intro h
    simp [APIService.fetch, fetchCatch, JsError.new, timed_out_ne_http_error status] at h
  · intro hname
    simp [APIService.fetch, fetchCatch, hname]

theorem fetch_failure_kinds_witness :
    ({ name := "AbortError", message := "The operation was aborted." } : JsError).name
      = "AbortError" ∧
    APIService.fetch (.rejected { name := "AbortError", message := "The operation was aborted." })
      = .error { name := "Error", message := "Request timed out" } :=
  ⟨rfl, (fetch_failure_kinds { name := "AbortError", message := "The operation was aborted." }
    500 200 (.ok .null)).2.1 rfl⟩

/-! ## Lower-casing -/

/-- On a string of ASCII characters `toLowerCase` is the same on every
platform. -/
theorem toLowerCase_ascii (platform : Platform) (s : String)
    (h : s.data.all (fun c => c.toNat < 128) = true) :
    toLowerCase platform s = String.mk (s.data.map Char.toLower) := by
  simp only [toLowerCase, h, if_true]

/-! ## C12: the freshness windows of the accessors -/

/-- C12. Each accessor is a call of `getCachedOrFetch` with its window:
300000 ms for the exchange rates, 86400000 ms for the list of all countries,
for the countries of a region and for the photos of a destination, 3600000 ms
for the rate history. -/
theorem accessor_windows (platform : Platform) (s : APIService)
    (baseCurrency targetCurrency region countryName : String) (count : Nat) (days now : Int) :
    s.getExchangeRates baseCurrency now =
      s.getCachedOrFetch ("rates_" ++ baseCurrency)
        (.httpGet ("https://api.exchangerate-api.com/v4/latest" ++ "/" ++ baseCurrency))
        300000 now ∧
    s.getAllCountries now =
      s.getCachedOrFetch "all_countries" (.httpGet ("https://restcountries.com/v3.1" ++ "/all"))
        86400000 now ∧
    s.getCountriesByRegion platform region now =
      s.getCachedOrFetch ("region_" ++ toLowerCase platform region)
        (.httpGet ("https://restcountries.com/v3.1" ++ "/region/" ++ region)) 86400000 now ∧
    s.getDestinationPhotos platform countryName count now =
      s.getCachedOrFetch ("photos_" ++ toLowerCase platform countryName)
        (.photoSearch countryName count) 86400000 now ∧
    s.getExchangeRateHistory platform baseCurrency targetCurrency days now =
      s.getCachedOrFetch
        ("history_" ++ baseCurrency ++ "_" ++ targetCurrency ++ "_" ++ numberToString platform days)
        (.rateHistory baseCurrency targetCurrency days) 3600000 now := by
  have hkey : ¬ (APIService.unsplashAccessKey = "") := by decide
  refine ⟨?_, ?_, ?_, ?_, ?_⟩
  · simp only [APIService.getExchangeRates, APIService.exchangeRateAPI]
    norm_num
  · simp only [APIService.getAllCountries, APIService.countriesAPI]
    norm_num
  · simp only [APIService.getCountriesByRegion, APIService.countriesAPI]
    norm_num
  · simp only [APIService.getDestinationPhotos, hkey, if_false]
    norm_num
  · simp only [APIService.getExchangeRateHistory]
    norm_num

/-! ## C13: the logical keys of the accessors -/

/-- C13, as stated, fails for a name of one character: `getCountryByName` of
`a` returns the empty array and leaves the service as it is, where a call of
the resolver under `country_a` on the constructed service starts a producer. -/
theorem getCountryByName_short_name_skips_resolver :
    APIService.new.getCountryByName samplePlatform "a" 0 = (.data (.arr []), APIService.new) ∧
    (APIService.new.getCountryByName samplePlatform "a" 0).2.invoked = [] ∧
    (APIService.new.getCachedOrFetch "country_a"
      (.httpGet "https://restcountries.com/v3.1/name/a") 86400000 0).2.invoked
      = [.httpGet "https://restcountries.com/v3.1/name/a"] ∧
    ¬ (APIService.new.getCountryByName samplePlatform "a" 0 =
        APIService.new.getCachedOrFetch ("country_" ++ toLowerCase samplePlatform "a")
          (.httpGet ("https://restcountries.com/v3.1" ++ "/name/" ++ "a")) 86400000 0) := by
  have hshort : ("a" = "" ∨ utf16Length "a" < 2) := by decide
  have h1 : APIService.new.getCountryByName samplePlatform "a" 0
      = (.data (.arr []), APIService.new) := by
    simp only [APIService.getCountryByName, hshort, if_true]
  refine ⟨h1, by rw [h1]; rfl, ?_, ?_⟩
  · simp [APIService.getCachedOrFetch, APIService.new, freshEntry]
  · rw [h1]
    intro h
    have h2 := congrArg (fun out => out.2.invoked) h
    simp [APIService.getCachedOrFetch, APIService.new, freshEntry] at h2

/-- C13, amended. On every platform the accessors resolve under `rates_` +
base, `all_countries`, `region_` + lower-cased region, `photos_` + lower-cased
country and `history_` + base + `_` + target + `_` + days, the days printed in
decimal when below `10^21` in magnitude; `getCountryByName` resolves under
`country_` + lower-cased name when the name has at least two code units and
returns the empty array without resolving otherwise.  The lower-casing is the
one of the platform, which on a string of ASCII characters maps `A` to `Z` to
`a` to `z`.  So two names that are equal once lower-cased give the same key
for countries, regions and photos, and a fresh entry stored for one is
returned to a request for the other. -/
theorem logical_keys (platform : Platform) (s : APIService)
    (baseCurrency targetCurrency a b : String) (count : Nat) (days now : Int)
    (hcase : toLowerCase platform a = toLowerCase platform b) :
    (s.getExchangeRates baseCurrency now =
      s.getCachedOrFetch ("rates_" ++ baseCurrency)
        (.httpGet ("https://api.exchangerate-api.com/v4/latest" ++ "/" ++ baseCurrency))
        300000 now ∧
    s.getAllCountries now =
      s.getCachedOrFetch "all_countries" (.httpGet ("https://restcountries.com/v3.1" ++ "/all"))
        86400000 now ∧
    s.getCountryByName platform a now =
      (if a = "" ∨ utf16Length a < 2 then (.data (.arr []), s)
       else s.getCachedOrFetch ("country_" ++ toLowerCase platform a)
        (.httpGet ("https://restcountries.com/v3.1" ++ "/name/" ++ a)) 86400000 now) ∧
    s.getCountriesByRegion platform a now =
      s.getCachedOrFetch ("region_" ++ toLowerCase platform a)
        (.httpGet ("https://restcountries.com/v3.1" ++ "/region/" ++ a)) 86400000 now ∧
    s.getDestinationPhotos platform a count now =
      s.getCachedOrFetch ("photos_" ++ toLowerCase platform a) (.photoSearch a count)
        86400000 now ∧
    s.getExchangeRateHistory platform baseCurrency targetCurrency days now =
      s.getCachedOrFetch
        ("history_" ++ baseCurrency ++ "_" ++ targetCurrency ++ "_" ++ numberToString platform days)
        (.rateHistory baseCurrency targetCurrency days) 3600000 now) ∧
    ((days.natAbs < 10 ^ 21 → numberToString platform days = toString days) ∧
      (a.data.all (fun c => c.toNat < 128) = true →
        toLowerCase platform a = String.mk (a.data.map Char.toLower)) ∧
      (a.data.all (fun c => c.toNat < 128) = false →
        toLowerCase platform a = platform.toLowerCase a)) ∧
    ("country_" ++ toLowerCase platform a = "country_" ++ toLowerCase platform b ∧
      "region_" ++ toLowerCase platform a = "region_" ++ toLowerCase platform b ∧
      "photos_" ++ toLowerCase platform a = "photos_" ++ toLowerCase platform b) ∧
    (∀ (d : JsonValue) (t : Int), now - t < 86400000 →
      (s.cache ("region_" ++ toLowerCase platform a) = some { data := d, timestamp := t } →
        (s.getCountriesByRegion platform b now).1 = .data d) ∧
      (s.cache ("photos_" ++ toLowerCase platform a) = some { data := d, timestamp := t } →
        (s.getDestinationPhotos platform b count now).1 = .data d) ∧
      (s.cache ("country_" ++ toLowerCase platform a) = some { data := d, timestamp := t } →
        ¬ (b = "" ∨ utf16Length b < 2) → (s.getCountryByName platform b now).1 = .data d)) := by
  have hkey : ¬ (APIService.unsplashAccessKey = "") := by decide
  have hphotos : ∀ (c : String), s.getDestinationPhotos platform c count now =
      s.getCachedOrFetch ("photos_" ++ toLowerCase platform c) (.photoSearch c count)
        86400000 now := by
    intro c
    simp only [APIService.getDestinationPhotos, hkey, if_false]
    norm_num
  have hregion : ∀ (c : String), s.getCountriesByRegion platform c now =
      s.getCachedOrFetch ("region_" ++ toLowerCase platform c)
        (.httpGet ("https://restcountries.com/v3.1" ++ "/region/" ++ c)) 86400000 now := by
    intro c
    simp only [APIService.getCountriesByRegion, APIService.countriesAPI]
    norm_num
  have hname : ∀ (c : String), s.getCountryByName platform c now =
      (if c = "" ∨ utf16Length c < 2 then (.data (.arr []), s)
       else s.getCachedOrFetch ("country_" ++ toLowerCase platform c)
        (.httpGet ("https://restcountries.com/v3.1" ++ "/name/" ++ c)) 86400000 now) := by
    intro c
    simp only [APIService.getCountryByName, APIService.countriesAPI]
    norm_num
  refine ⟨⟨?_, ?_, hname a, hregion a, hphotos a, ?_⟩, ⟨?_, ?_, ?_⟩,
    ⟨by rw [hcase], by rw [hcase], by rw [hcase]⟩, ?_⟩
  · simp only [APIService.getExchangeRates, APIService.exchangeRateAPI]
    norm_num
  · simp only [APIService.getAllCountries, APIService.countriesAPI]
    norm_num
  · simp only [APIService.getExchangeRateHistory]
    norm_num
  · intro hsmall
    simp only [numberToString, hsmall, if_true]
  · intro hascii
    simp only [toLowerCase, hascii, if_true]
  · intro hother
    simp [toLowerCase, hother]
  · intro d t hlt
    refine ⟨?_, ?_, ?_⟩
    · intro hentry
      rw [hregion b, ← hcase]
      rw [getCachedOrFetch_fresh s _ _ 86400000 now { data := d, timestamp := t }
        (by rw [hentry]; exact freshEntry_of_lt d t _ now hlt)]
    · intro hentry
      rw [hphotos b, ← hcase]
      rw [getCachedOrFetch_fresh s _ _ 86400000 now { data := d, timestamp := t }
        (by rw [hentry]; exact freshEntry_of_lt d t _ now hlt)]
    · intro hentry hlong
      rw [hname b, if_neg hlong, ← hcase]
      rw [getCachedOrFetch_fresh s _ _ 86400000 now { data := d, timestamp := t }
        (by rw [hentry]; exact freshEntry_of_lt d t _ now hlt)]

theorem logical_keys_witness :
    (toLowerCase samplePlatform "ÅLAND" = "åland" ∧
      toLowerCase samplePlatform "Åland" = "åland" ∧
      toLowerCase samplePlatform "FRANCE" = "france") ∧
    "country_" ++ toLowerCase samplePlatform "ÅLAND"
      = "country_" ++ toLowerCase samplePlatform "Åland" ∧
    APIService.new.getCountryByName samplePlatform "ÅLAND" 0 =
      APIService.new.getCachedOrFetch ("country_" ++ toLowerCase samplePlatform "ÅLAND")
        (.httpGet ("https://restcountries.com/v3.1" ++ "/name/" ++ "ÅLAND")) 86400000 0 ∧
    numberToString samplePlatform 30 = "30" :=
  have hupper : toLowerCase samplePlatform "ÅLAND" = "åland" := by decide
  have hmixed : toLowerCase samplePlatform "Åland" = "åland" := by decide
  have hlong : ¬ ("ÅLAND" = "" ∨ utf16Length "ÅLAND" < 2) := by decide
  have h := logical_keys samplePlatform APIService.new "USD" "EUR" "ÅLAND" "Åland" 6 30 0
    (hupper.trans hmixed.symm)
  ⟨⟨hupper, hmixed, by decide⟩, h.2.2.1.1, (h.1.2.2.1).trans (if_neg hlong), by decide⟩

/-! ## C15: persistence round trip -/

theorem setItem_available (s : StorageService) (k : String) (v : JsonValue)
    (havail : s.available = true) :
    s.setItem k v false =
      .ok { s with localStorage := { items := Function.update s.localStorage.items k (some (.json v)) } } := by
  simp [StorageService.setItem, havail, LocalStorage.setItem, JSON.stringify]

theorem setItem_refused (s : StorageService) (k : String) (v : JsonValue) :
    s.setItem k v true = .ok s := by
  cases ha : s.available <;> simp [StorageService.setItem, ha, LocalStorage.setItem]

theorem setItem_unavailable (s : StorageService) (k : String) (v : JsonValue) (refused : Bool)
    (hun : s.available = false) : s.setItem k v refused = .ok s := by
  simp [StorageService.setItem, hun]

theorem getItem_unavailable (s : StorageService) (k : String) (hun : s.available = false) :
    s.getItem k = .ok (.null, s) := by
  simp [StorageService.getItem, hun]

theorem getItem_json (s : StorageService) (k : String) (v : JsonValue)
    (havail : s.available = true) (hk : s.localStorage.items k = some (.json v)) :
    s.getItem k = .ok (v, s) := by
  simp [StorageService.getItem, havail, LocalStorage.getItem, hk, StoredText.truthy, JSON.parse]

theorem getItem_absent (s : StorageService) (k : String)
    (hk : s.localStorage.items k = none) : s.getItem k = .ok (.null, s) := by
  cases ha : s.available <;> simp [StorageService.getItem, ha, LocalStorage.getItem, hk]

theorem getItem_empty (s : StorageService) (k : String)
    (hk : s.localStorage.items k = some (.invalid "")) : s.getItem k = .ok (.null, s) := by
  cases ha : s.available <;>
    simp [StorageService.getItem, ha, LocalStorage.getItem, hk, StoredText.truthy]

theorem getItem_invalid (s : StorageService) (k text : String)
    (havail : s.available = true) (hk : s.localStorage.items k = some (.invalid text))
    (htext : text ≠ "") :
    s.getItem k =
      .ok (.null, { s with localStorage := { items := Function.update s.localStorage.items k none } }) := by
  simp [StorageService.getItem, havail, LocalStorage.getItem, hk, StoredText.truthy, htext,
    JSON.parse, StorageService.removeItem, LocalStorage.removeItem]

/-- The value `getItem(k2)` returns depends on the store at `k2` only. -/
theorem getItem_value_congr (s s1 : StorageService) (k2 : String)
    (havail : s1.available = s.available)
    (hk : s1.localStorage.items k2 = s.localStorage.items k2) :
    (s1.getItem k2).map Prod.fst = (s.getItem k2).map Prod.fst := by
  cases ha : s.available with
  | false =>
    rw [getItem_unavailable s k2 ha, getItem_unavailable s1 k2 (havail.trans ha)]
    rfl
  | true =>
    have ha1 := havail.trans ha
    cases hi : s.localStorage.items k2 with
    | none =>
      rw [getItem_absent s k2 hi, getItem_absent s1 k2 (hk.trans hi)]
      rfl
    | some item =>
      cases item with
      | json v =>
        rw [getItem_json s k2 v ha hi, getItem_json s1 k2 v ha1 (hk.trans hi)]
        rfl
      | invalid text =>
        by_cases ht : text = ""
        · subst ht
          rw [getItem_empty s k2 hi, getItem_empty s1 k2 (hk.trans hi)]
          rfl
        · rw [getItem_invalid s k2 text ha hi ht, getItem_invalid s1 k2 text ha1 (hk.trans hi) ht]
          rfl

/-- C15. When storage is available and the write is not refused, `getItem(k)`
after `setItem(k, v)` returns `v`; `getItem(k)` after `removeItem(k)` returns
`null`; and whether the write succeeds or not, `setItem` on `k` leaves the value
that `getItem` returns for any other key `k2` as it was. -/
theorem storage_round_trip (s : StorageService) (k k2 : String) (v : JsonValue)
    (havail : s.available = true) (hk : k2 ≠ k) :
    (∃ s1, s.setItem k v false = .ok s1 ∧ s1.getItem k = .ok (v, s1)) ∧
    (∃ s1, s.removeItem k = .ok s1 ∧ s1.getItem k = .ok (.null, s1)) ∧
    (∀ refused, ∃ s1, s.setItem k v refused = .ok s1 ∧
      (s1.getItem k2).map Prod.fst = (s.getItem k2).map Prod.fst) := by
  have hrem : s.removeItem k = .ok { s with localStorage := s.localStorage.removeItem k } := by
    simp [StorageService.removeItem, havail]
  refine ⟨⟨_, setItem_available s k v havail, ?_⟩, ⟨_, hrem, ?_⟩, ?_⟩
  · exact getItem_json _ k v havail (by simp)
  · exact getItem_absent _ k (by simp [LocalStorage.removeItem])
  · intro refused
    cases refused with
    | true => exact ⟨s, setItem_refused s k v, rfl⟩
    | false =>
      refine ⟨_, setItem_available s k v havail, ?_⟩
      exact getItem_value_congr _ _ k2 rfl (by simp [Function.update_noteq hk])

theorem storage_round_trip_witness :
    (sampleStorage.available = true ∧ "tbc_trips" ≠ "tbc_expenses") ∧
    ∃ s1, sampleStorage.setItem "tbc_expenses" (.arr []) false = .ok s1 ∧
      s1.getItem "tbc_expenses" = .ok (.arr [], s1) :=
  ⟨⟨rfl, by decide⟩,
    (storage_round_trip sampleStorage "tbc_expenses" "tbc_trips" (.arr []) rfl (by decide)).1⟩

/-! ## C20: storage error handling -/

/-- C20, as stated, fails for a stored empty string: it is no JSON text,
`getItem` returns `null` for it, and the key is still there afterwards. -/
theorem getItem_keeps_empty_text :
    sampleStorage.localStorage.items "tbc_user_settings" = some (.invalid "") ∧
    JSON.parse (.invalid "") = .error { name := "SyntaxError", message := "Unexpected token in " } ∧
    sampleStorage.getItem "tbc_user_settings" = .ok (.null, sampleStorage) ∧
    ¬ (∃ s1, sampleStorage.getItem "tbc_user_settings" = .ok (.null, s1) ∧
        s1.localStorage.items "tbc_user_settings" = none) := by
  have hk : sampleStorage.localStorage.items "tbc_user_settings" = some (.invalid "") := by
    simp [sampleStorage, sampleStore]
  have hget := getItem_empty sampleStorage "tbc_user_settings" hk
  refine ⟨hk, by simp [JSON.parse], hget, ?_⟩
  rintro ⟨s1, h1, h2⟩
  rw [hget] at h1
  simp only [Except.ok.injEq, Prod.mk.injEq, true_and] at h1
  rw [← h1, hk] at h2
  cases h2

/-- C20, amended. No operation of the storage service raises: each returns.
`getItem` returns `null` for an absent key and leaves the store alone; for a
stored string that is not empty and no JSON text it returns `null` and removes
the key, touching no other key; for a stored empty string it returns `null`
and leaves the key. When storage is unavailable, `setItem`, `removeItem` and
`clear` change nothing and `getItem` returns `null`. -/
theorem storage_error_handling (s : StorageService) (ls : LocalStorage) (k text : String)
    (v : JsonValue) (refused : Bool) :
    ((∃ s1, StorageService.new ls refused = .ok s1) ∧
      (∃ s1, s.setItem k v refused = .ok s1) ∧
      (∃ out, s.getItem k = .ok out) ∧
      (∃ s1, s.removeItem k = .ok s1) ∧
      (∃ s1, s.clear = .ok s1)) ∧
    (s.localStorage.items k = none → s.getItem k = .ok (.null, s)) ∧
    (s.available = true → s.localStorage.items k = some (.invalid text) → text ≠ "" →
      ∃ s1, s.getItem k = .ok (.null, s1) ∧ s1.localStorage.items k = none ∧
        ∀ k2, k2 ≠ k → s1.localStorage.items k2 = s.localStorage.items k2) ∧
    (s.localStorage.items k = some (.invalid "") → s.getItem k = .ok (.null, s)) ∧
    (s.available = false →
      s.setItem k v refused = .ok s ∧ s.removeItem k = .ok s ∧ s.clear = .ok s ∧
      s.getItem k = .ok (.null, s)) := by
  refine ⟨⟨?_, ?_, ?_, ?_, ?_⟩, getItem_absent s k, ?_, getItem_empty s k, ?_⟩
  · cases refused <;>
      simp [StorageService.new, StorageService.checkAvailable, LocalStorage.setItem]
  · cases refused with
    | true => exact ⟨s, setItem_refused s k v⟩
    | false =>
      cases ha : s.available with
      | true => exact ⟨_, setItem_available s k v ha⟩
      | false => exact ⟨s, setItem_unavailable s k v false ha⟩
  · cases ha : s.available with
    | false => exact ⟨_, getItem_unavailable s k ha⟩
    | true =>
      cases hi : s.localStorage.items k with
      | none => exact ⟨_, getItem_absent s k hi⟩
      | some item =>
        cases item with
        | json w => exact ⟨_, getItem_json s k w ha hi⟩
        | invalid t =>
          by_cases ht : t = ""
          · subst ht
            exact ⟨_, getItem_empty s k hi⟩
          · exact ⟨_, getItem_invalid s k t ha hi ht⟩
  · cases ha : s.available <;> simp [StorageService.removeItem, ha]
  · cases ha : s.available <;> simp [StorageService.clear, ha]
  · intro ha hi ht
    refine ⟨_, getItem_invalid s k text ha hi ht, by simp, ?_⟩
    intro k2 hk2
    simp [Function.update_noteq hk2]
  · intro hun
    refine ⟨setItem_unavailable s k v refused hun, ?_, ?_, getItem_unavailable s k hun⟩
    · simp [StorageService.removeItem, hun]
    · simp [StorageService.clear, hun]

theorem storage_error_handling_witness :
    (sampleStorage.available = true ∧
      sampleStorage.localStorage.items "tbc_preferences" = some (.invalid "undefined") ∧
      "undefined" ≠ "") ∧
    ∃ s1, sampleStorage.getItem "tbc_preferences" = .ok (.null, s1) ∧
      s1.localStorage.items "tbc_preferences" = none :=
  have hk : sampleStorage.localStorage.items "tbc_preferences" = some (.invalid "undefined") := by
    simp [sampleStorage, sampleStore]
  have h := (storage_error_handling sampleStorage sampleStore "tbc_preferences" "undefined"
    .null false).2.2.1 rfl hk (by decide)
  ⟨⟨rfl, hk, by decide⟩, h.elim (fun s1 hs => ⟨s1, hs.1, hs.2.1⟩)⟩

/-- Settlement with a failure of a producer started with no entry: the
request is rejected with the error of the producer. -/
theorem settle_failure_absent (s : APIService) (r : RequestId) (p : PendingRequest)
    (e : JsError) (now : Int)
    (hp : s.pending.find? (fun q => q.id == r) = some p) (hc : p.cached = none) :
    s.settle r (.error e) now =
      some (.error e,
        { s with
          activeRequests := Function.update s.activeRequests p.key none
          pending := s.pending.filter (fun q => q.id != r)
          settled := Function.update s.settled r (some (.error e)) }) := by
  rw [settle_of_find s r p _ now hp]
  simp [catchHandler, hc]

/-! ## C14: a failed photo request gives an empty gallery -/

/-- C14. For every country, when `getDestinationPhotos` fails with any error,
`showModal` raises nothing and gives the modal body the details of the country
with no gallery block. So it is when the photo search of a country times out
with nothing cached: the request the explorer awaits is rejected with
`Request timed out`, and the modal body has no gallery block. -/
theorem showModal_photo_failure (platform : Platform) (country : Country) (e : JsError)
    (countryName : String) (now now1 : Int) :
    DestinationExplorer.showModal (some country) (.error e)
      = .ok (some { country := country, gallery := none }) ∧
    (∃ s2,
      (APIService.new.getDestinationPhotos platform countryName 6 now).1 = .request 0 ∧
      (APIService.new.getDestinationPhotos platform countryName 6 now).2.settle 0
        (APIService.fetch (.rejected { name := "AbortError", message := "The operation was aborted." }))
        now1 = some (.error (JsError.new "Request timed out"), s2) ∧
      s2.received (.request 0) = some (.error (JsError.new "Request timed out")) ∧
      DestinationExplorer.showModal (some country) (.error (JsError.new "Request timed out"))
        = .ok (some { country := country, gallery := none })) := by
  have hmodal : ∀ err : JsError, DestinationExplorer.showModal (some country) (.error err)
      = .ok (some { country := country, gallery := none }) := by
    intro err
    simp [DestinationExplorer.showModal]
  have hkey : ¬ (APIService.unsplashAccessKey = "") := by decide
  have hcall : APIService.new.getDestinationPhotos platform countryName 6 now =
      APIService.new.getCachedOrFetch ("photos_" ++ toLowerCase platform countryName)
        (.photoSearch countryName 6) 86400000 now := by
    simp only [APIService.getDestinationPhotos, hkey, if_false]
    norm_num
  have hstart := getCachedOrFetch_started APIService.new ("photos_" ++ toLowerCase platform countryName)
    (.photoSearch countryName 6) 86400000 now rfl rfl
  have hfetch : APIService.fetch
      (.rejected { name := "AbortError", message := "The operation was aborted." })
      = .error (JsError.new "Request timed out") := by
    simp [APIService.fetch, fetchCatch]
  have hsettle := settle_failure_absent
    (APIService.new.getCachedOrFetch ("photos_" ++ toLowerCase platform countryName)
      (.photoSearch countryName 6) 86400000 now).2 0
    { id := 0, key := "photos_" ++ toLowerCase platform countryName, cached := none,
      fetchFn := .photoSearch countryName 6 }
    (JsError.new "Request timed out") now1 (by rw [hstart]; simp [APIService.new]) rfl
  have hfirst : (APIService.new.getDestinationPhotos platform countryName 6 now).1 = .request 0 := by
    rw [hcall, hstart]
    rfl
  refine ⟨hmodal e, ?_⟩
  rw [hfetch, hcall, hsettle]
  rw [hcall] at hfirst
  exact ⟨_, hfirst, rfl, by simp [APIService.received], hmodal _⟩

/-! ## C17: region and search together -/

/-- C17 at a failing input. The explorer holds all countries, the first of
them European; the region selector says `Europe` and the search box `jap`.
The first country being of the selected region, no list is fetched, and the
filtered list is Japan, a country of Asia. -/
theorem filterCountries_keeps_other_regions (platform : Platform)
    (byRegion all : Except JsError (List Country)) :
    (sampleExplorer.filterCountries platform "jap" "Europe" byRegion all).filtered =
      [{ cca2 := "JP", nameCommon := "Japan", nameOfficial := "Japan", region := "Asia" }] ∧
    ¬ (∀ c ∈ (sampleExplorer.filterCountries platform "jap" "Europe" byRegion all).filtered,
        c.region = "Europe") := by
  have hlow : toLowerCase platform "jap" = "jap" :=
    (toLowerCase_ascii platform "jap" (by decide)).trans (by decide)
  have h : (sampleExplorer.filterCountries platform "jap" "Europe" byRegion all).filtered =
      [{ cca2 := "JP", nameCommon := "Japan", nameOfficial := "Japan", region := "Asia" }] := by
    have hfr : matchesSearch platform "jap"
        { cca2 := "FR", nameCommon := "France", nameOfficial := "French Republic",
          region := "Europe" } = false := by
      simp only [matchesSearch, toLowerCase_ascii platform "France" (by decide),
        toLowerCase_ascii platform "French Republic" (by decide)]
      decide
    have hjp : matchesSearch platform "jap"
        { cca2 := "JP", nameCommon := "Japan", nameOfficial := "Japan", region := "Asia" }
        = true := by
      simp only [matchesSearch, toLowerCase_ascii platform "Japan" (by decide)]
      decide
    simp [DestinationExplorer.filterCountries, hlow, sampleExplorer, List.filter, hfr, hjp]
  refine ⟨h, ?_⟩
  rw [h]
  intro hall
  have := hall _ (List.mem_singleton.mpr rfl)
  simp at this

/-! ## C16: cascade delete -/

theorem getProp_of_ne_null (name : String) (record : JsonValue) (h : record ≠ .null) :
    record.getProp name = .ok (record.prop name) := by
  cases record <;> simp [JsonValue.getProp] at h ⊢

theorem filterE_propDiffers (name value : String) (items : List JsonValue)
    (h : ∀ x ∈ items, x ≠ .null) :
    filterE (propDiffers name value) items
      = .ok (items.filter (fun x => strictNe (x.prop name) value)) := by
  induction items with
  | nil => rfl
  | cons x xs ih =>
    have hx := getProp_of_ne_null name x (h x (List.mem_cons_self _ _))
    have hxs := ih (fun y hy => h y (List.mem_cons_of_mem _ hy))
    simp only [filterE, propDiffers, hx, hxs, List.filter_cons]

/-- What `getItem` does on an available store: it returns, the service stays
available, only the key read can change, and it changes only by removal. -/
theorem getItem_available (s : StorageService) (k : String) (havail : s.available = true) :
    ∃ v s1, s.getItem k = .ok (v, s1) ∧ s1.available = true ∧
      (∀ k2, k2 ≠ k → s1.localStorage.items k2 = s.localStorage.items k2) := by
  cases hi : s.localStorage.items k with
  | none => exact ⟨_, _, getItem_absent s k hi, havail, fun _ _ => rfl⟩
  | some item =>
    cases item with
    | json w => exact ⟨_, _, getItem_json s k w havail hi, havail, fun _ _ => rfl⟩
    | invalid t =>
      by_cases ht : t = ""
      · subst ht
        exact ⟨_, _, getItem_empty s k hi, havail, fun _ _ => rfl⟩
      · refine ⟨_, _, getItem_invalid s k t havail hi ht, havail, ?_⟩
        intro k2 hk2
        simp [Function.update_noteq hk2]

/-- A write that the browser accepts, on an available store: the key holds
the text of the value and no other key changes. -/
theorem setItem_spec (s : StorageService) (k : String) (v : JsonValue)
    (havail : s.available = true) :
    ∃ s1, s.setItem k v false = .ok s1 ∧ s1.available = true ∧
      s1.localStorage.items k = some (.json v) ∧
      ∀ k2, k2 ≠ k → s1.localStorage.items k2 = s.localStorage.items k2 := by
  refine ⟨_, setItem_available s k v havail, havail, by simp, ?_⟩
  intro k2 hk2
  simp [Function.update_noteq hk2]

theorem persistedOrEmpty_json_arr (s : StorageService) (k : String) (items : List JsonValue)
    (havail : s.available = true) (hk : s.localStorage.items k = some (.json (.arr items))) :
    s.persistedOrEmpty k = .arr items := by
  simp [StorageService.persistedOrEmpty, getItem_json s k _ havail hk, JsonValue.orEmptyArray,
    JsonValue.truthy]

/-- A trip of the application renders without raising, on every platform. -/
theorem renderTrip_tripRecord (platform : Platform) (id name : String) (budget : ℚ) :
    TripManager.renderTrip platform (tripRecord id name budget) = none := by
  simp [TripManager.renderTrip, tripRecord, JsonValue.getProp, JsonValue.prop, List.lookup,
    firstRaised, reduceBudgetsRaises, conversionRaises, formatDate, formatCurrency]

/-- A stored trip without `destinations` makes the rendering raise a
`TypeError`, on every platform. -/
theorem displayTrips_without_destinations (platform : Platform) :
    TripManager.displayTrips platform { trips := .arr [.obj [("id", .str "_t1")]] }
      = some (typeError "Cannot read properties of undefined (reading 'reduce')") := by
  simp [TripManager.displayTrips, TripManager.renderTrip, JsonValue.getProp, JsonValue.prop,
    List.lookup, firstRaised]

/-- C16, as stated, fails when the browser refuses the writes: the store
holds two trips and an expense of each, and after the confirmed deletion of
the first trip, which raises nothing, the persisted trips and expenses are
what they were, the deleted trip and its expense among them. -/
theorem deleteTrip_refused_write_keeps_trip :
    sampleTripManager.trips = .arr [tripRecord "_t1" "Rome" 500, tripRecord "_t2" "Oslo" 300] ∧
    sampleTripStorage.persistedOrEmpty CONSTANTS.STORAGE_KEYS.TRIPS
      = .arr [tripRecord "_t1" "Rome" 500, tripRecord "_t2" "Oslo" 300] ∧
    (sampleTripManager.deleteTrip samplePlatform sampleTripStorage "_t1" true true true).raised
      = none ∧
    (sampleTripManager.deleteTrip samplePlatform sampleTripStorage "_t1" true true true).state.2
      = sampleTripStorage ∧
    sampleTripStorage.persistedOrEmpty CONSTANTS.STORAGE_KEYS.TRIPS ≠
      .arr ([tripRecord "_t1" "Rome" 500, tripRecord "_t2" "Oslo" 300].filter
        (fun t => strictNe (t.prop "id") "_t1")) ∧
    sampleTripStorage.persistedOrEmpty CONSTANTS.STORAGE_KEYS.EXPENSES ≠
      .arr ([expenseRecord "_e1" (some "_t1") 20, expenseRecord "_e2" (some "_t2") 30].filter
        (fun e => strictNe (e.prop "tripId") "_t1")) := by
  have hk : sampleTripStorage.localStorage.items "tbc_trips"
      = some (.json (.arr [tripRecord "_t1" "Rome" 500, tripRecord "_t2" "Oslo" 300])) := by
    simp [sampleTripStorage, sampleTripStore]
  have hke : sampleTripStorage.localStorage.items "tbc_expenses"
      = some (.json (.arr [expenseRecord "_e1" (some "_t1") 20,
          expenseRecord "_e2" (some "_t2") 30])) := by
    simp [sampleTripStorage, sampleTripStore]
  have hp : sampleTripStorage.persistedOrEmpty CONSTANTS.STORAGE_KEYS.TRIPS
      = .arr [tripRecord "_t1" "Rome" 500, tripRecord "_t2" "Oslo" 300] :=
    persistedOrEmpty_json_arr sampleTripStorage "tbc_trips" _ rfl hk
  have hpe : sampleTripStorage.persistedOrEmpty CONSTANTS.STORAGE_KEYS.EXPENSES
      = .arr [expenseRecord "_e1" (some "_t1") 20, expenseRecord "_e2" (some "_t2") 30] :=
    persistedOrEmpty_json_arr sampleTripStorage "tbc_expenses" _ rfl hke
  have hdel : sampleTripManager.deleteTrip samplePlatform sampleTripStorage "_t1" true true true
      = { raised := none
          state := ({ trips := .arr [tripRecord "_t1" "Rome" 500, tripRecord "_t2" "Oslo" 300] },
            sampleTripStorage) } := by
    simp [TripManager.deleteTrip, sampleTripManager, JsonValue.filter, filterE, propDiffers,
      JsonValue.getProp, JsonValue.prop, List.lookup, strictNe, CONSTANTS.STORAGE_KEYS.EXPENSES,
      CONSTANTS.STORAGE_KEYS.TRIPS, getItem_json sampleTripStorage "tbc_expenses" _ rfl hke,
      JsonValue.orEmptyArray, JsonValue.truthy, setItem_refused, TripManager.loadTrips,
      getItem_json sampleTripStorage "tbc_trips" _ rfl hk, TripManager.displayTrips,
      renderTrip_tripRecord, firstRaised, tripRecord, expenseRecord]
  refine ⟨rfl, hp, by rw [hdel], by rw [hdel], ?_, ?_⟩
  · rw [hp]
    simp [JsonValue.prop, List.lookup, strictNe, tripRecord]
  · rw [hpe]
    simp [JsonValue.prop, List.lookup, strictNe, expenseRecord]

/-- C16, amended. Storage is available and the browser refuses no write; the
manager holds the array `ts` of trips and the expenses persisted before are
the array `es`, neither with a `null` element. A confirmed `deleteTrip(id)`
writes and then renders: on every platform it ends with what the rendering of
the remaining trips raises, if anything, and either way it leaves this state.
The persisted trips, which the manager holds again, are the elements of `ts`
whose `id` is not `id`, in their order, and the persisted expenses are the
elements of `es` whose `tripId` is not `id`, in their order: every expense of
another trip is still there, as it was. -/
theorem deleteTrip_cascade (platform : Platform) (m : TripManager) (storage : StorageService)
    (tripId : String) (ts es : List JsonValue)
    (havail : storage.available = true)
    (htrips : m.trips = .arr ts) (hts : ∀ t ∈ ts, t ≠ .null)
    (hexp : storage.persistedOrEmpty CONSTANTS.STORAGE_KEYS.EXPENSES = .arr es)
    (hes : ∀ e ∈ es, e ≠ .null) :
    ∃ m2 s2, m.deleteTrip platform storage tripId true false false
        = { raised := TripManager.displayTrips platform
              { trips := .arr (ts.filter (fun t => strictNe (t.prop "id") tripId)) }
            state := (m2, s2) } ∧
      s2.persistedOrEmpty CONSTANTS.STORAGE_KEYS.TRIPS
        = .arr (ts.filter (fun t => strictNe (t.prop "id") tripId)) ∧
      s2.persistedOrEmpty CONSTANTS.STORAGE_KEYS.EXPENSES
        = .arr (es.filter (fun e => strictNe (e.prop "tripId") tripId)) ∧
      m2.trips = .arr (ts.filter (fun t => strictNe (t.prop "id") tripId)) ∧
      (ts.filter (fun t => strictNe (t.prop "id") tripId)).Sublist ts ∧
      (es.filter (fun e => strictNe (e.prop "tripId") tripId)).Sublist es ∧
      (∀ e ∈ es, strictNe (e.prop "tripId") tripId = true →
        e ∈ es.filter (fun e => strictNe (e.prop "tripId") tripId)) := by
  obtain ⟨v, s1, hget, havail1, -⟩ :=
    getItem_available storage CONSTANTS.STORAGE_KEYS.EXPENSES havail
  have hv : v.orEmptyArray = .arr es := by
    simpa [StorageService.persistedOrEmpty, hget] using hexp
  have hne : CONSTANTS.STORAGE_KEYS.TRIPS ≠ CONSTANTS.STORAGE_KEYS.EXPENSES := by decide
  have hfe := filterE_propDiffers "tripId" tripId es hes
  have hft := filterE_propDiffers "id" tripId ts hts
  obtain ⟨s2, hset1, havail2, hitem2, -⟩ := setItem_spec s1 CONSTANTS.STORAGE_KEYS.EXPENSES
    (.arr (es.filter (fun e => strictNe (e.prop "tripId") tripId))) havail1
  obtain ⟨s3, hset2, havail3, hitem3, hother3⟩ := setItem_spec s2 CONSTANTS.STORAGE_KEYS.TRIPS
    (.arr (ts.filter (fun t => strictNe (t.prop "id") tripId))) havail2
  have hload := getItem_json s3 CONSTANTS.STORAGE_KEYS.TRIPS _ havail3 hitem3
  have hdel : m.deleteTrip platform storage tripId true false false =
      { raised := TripManager.displayTrips platform
          { trips := .arr (ts.filter (fun t => strictNe (t.prop "id") tripId)) }
        state := ({ trips := .arr (ts.filter (fun t => strictNe (t.prop "id") tripId)) }, s3) } := by
    simp only [TripManager.deleteTrip, if_true, htrips, JsonValue.filter, hft, hget, hv, hfe,
      hset1, hset2, TripManager.loadTrips, hload]
    simp [JsonValue.orEmptyArray, JsonValue.truthy]
  refine ⟨_, _, hdel, ?_, ?_, rfl, List.filter_sublist _, List.filter_sublist _, ?_⟩
  · exact persistedOrEmpty_json_arr _ _ _ havail3 hitem3
  · exact persistedOrEmpty_json_arr _ _ _ havail3 ((hother3 _ hne.symm).trans hitem2)
  · intro e he hkeep
    exact List.mem_filter.mpr ⟨he, hkeep⟩

theorem deleteTrip_cascade_witness :
    (sampleTripStorage.available = true ∧
      sampleTripManager.trips
        = .arr [tripRecord "_t1" "Rome" 500, tripRecord "_t2" "Oslo" 300] ∧
      sampleTripStorage.persistedOrEmpty CONSTANTS.STORAGE_KEYS.EXPENSES
        = .arr [expenseRecord "_e1" (some "_t1") 20, expenseRecord "_e2" (some "_t2") 30]) ∧
    ∃ m2 s2, sampleTripManager.deleteTrip samplePlatform sampleTripStorage "_t1" true false false
        = { raised := none, state := (m2, s2) } ∧
      s2.persistedOrEmpty CONSTANTS.STORAGE_KEYS.TRIPS = .arr [tripRecord "_t2" "Oslo" 300] ∧
      s2.persistedOrEmpty CONSTANTS.STORAGE_KEYS.EXPENSES
        = .arr [expenseRecord "_e2" (some "_t2") 30] :=
  have hke : sampleTripStorage.localStorage.items "tbc_expenses"
      = some (.json (.arr [expenseRecord "_e1" (some "_t1") 20,
          expenseRecord "_e2" (some "_t2") 30])) := by
    simp [sampleTripStorage, sampleTripStore]
  have hexp : sampleTripStorage.persistedOrEmpty CONSTANTS.STORAGE_KEYS.EXPENSES
      = .arr [expenseRecord "_e1" (some "_t1") 20, expenseRecord "_e2" (some "_t2") 30] :=
    persistedOrEmpty_json_arr sampleTripStorage "tbc_expenses" _ rfl hke
  have hts : [tripRecord "_t1" "Rome" 500, tripRecord "_t2" "Oslo" 300].filter
      (fun t => strictNe (t.prop "id") "_t1") = [tripRecord "_t2" "Oslo" 300] := by
    simp [JsonValue.prop, List.lookup, strictNe, tripRecord]
  have hes : [expenseRecord "_e1" (some "_t1") 20, expenseRecord "_e2" (some "_t2") 30].filter
      (fun e => strictNe (e.prop "tripId") "_t1") = [expenseRecord "_e2" (some "_t2") 30] := by
    simp [JsonValue.prop, List.lookup, strictNe, expenseRecord]
  have hshow : TripManager.displayTrips samplePlatform
      { trips := .arr [tripRecord "_t2" "Oslo" 300] } = none := by
    simp [TripManager.displayTrips, renderTrip_tripRecord, firstRaised]
  have h := deleteTrip_cascade samplePlatform sampleTripManager sampleTripStorage "_t1"
    [tripRecord "_t1" "Rome" 500, tripRecord "_t2" "Oslo" 300]
    [expenseRecord "_e1" (some "_t1") 20, expenseRecord "_e2" (some "_t2") 30]
    rfl rfl (by simp [tripRecord]) hexp (by simp [expenseRecord])
  ⟨⟨rfl, rfl, hexp⟩, h.elim (fun m2 hm => hm.elim (fun s2 hs =>
    ⟨m2, s2, by rw [hs.1, hts, hshow], by rw [hs.2.1, hts], by rw [hs.2.2.1, hes]⟩))⟩

/-! ## C18: the conversion history -/

/-- An entry held in memory is the same value as what `JSON.stringify`
writes for it exactly when its numbers are finite. -/
theorem sameAs_toJson (entry : HistoryEntry) :
    entry.sameAs entry.toJson ↔ entry.finite = true := by
  cases entry with
  | loaded value => simp [HistoryEntry.sameAs, HistoryEntry.toJson, HistoryEntry.finite]
  | item id fromAmount fromCurrency toAmount toCurrency rate timestamp =>
    cases fromAmount <;> cases toAmount <;> cases rate <;>
      simp [HistoryEntry.sameAs, HistoryEntry.toJson, HistoryEntry.finite, JsNumber.isFinite,
        JsNumber.toJson]

/-- The history held in memory is the same value as the array
`JSON.stringify` writes for it exactly when the numbers of its entries are
finite. -/
theorem sameAs_map_toJson (entries : List HistoryEntry) :
    (HistoryValue.array entries).sameAs (.arr (entries.map HistoryEntry.toJson)) ↔
      ∀ e ∈ entries, e.finite = true := by
  simp only [HistoryValue.sameAs, JsonValue.arr.injEq, exists_eq_left']
  rw [List.forall₂_map_right_iff, List.forall₂_same]
  exact forall₂_congr (fun e _ => sameAs_toJson e)

/-- C18, as stated, fails in two ways. When storage is unavailable, the
converter holds the new conversion after `saveToHistory` and nothing is
persisted. And when storage is available and the conversion of `1e308` at the
rate 2 gave `Infinity`, the converter holds the item with the amount
`Infinity` and the persisted item has `null` for it. -/
theorem saveToHistory_persisted_differs :
    (∃ c2 s2, sampleConverter.saveToHistory sampleUnavailable (.finite 100) "USD" (.finite 91)
        "EUR" (.finite (91 / 100)) 1700000000000 "2023-11-14T22:13:20.000Z" false
        = .ok (c2, s2) ∧
      c2.conversionHistory = .array [sampleConversion 1700000000000] ∧
      s2.persistedOrEmpty CONSTANTS.STORAGE_KEYS.CONVERSION_HISTORY = .arr [] ∧
      ¬ c2.conversionHistory.sameAs
        (s2.persistedOrEmpty CONSTANTS.STORAGE_KEYS.CONVERSION_HISTORY)) ∧
    (∃ c2 s2, sampleConverter.saveToHistory sampleStorage (.finite (10 ^ 308)) "USD" .posInfinity
        "EUR" (.finite 2) 1700000000000 "2023-11-14T22:13:20.000Z" false = .ok (c2, s2) ∧
      c2.conversionHistory = .array [.item 1700000000000 (.finite (10 ^ 308)) "USD" .posInfinity
        "EUR" (.finite 2) "2023-11-14T22:13:20.000Z"] ∧
      s2.persistedOrEmpty CONSTANTS.STORAGE_KEYS.CONVERSION_HISTORY
        = .arr [.obj [("id", .num 1700000000000), ("fromAmount", .num (10 ^ 308)),
            ("fromCurrency", .str "USD"), ("toAmount", .null), ("toCurrency", .str "EUR"),
            ("rate", .num 2), ("timestamp", .str "2023-11-14T22:13:20.000Z")]] ∧
      ¬ c2.conversionHistory.sameAs
        (s2.persistedOrEmpty CONSTANTS.STORAGE_KEYS.CONVERSION_HISTORY)) := by
  constructor
  · have hsave : sampleConverter.saveToHistory sampleUnavailable (.finite 100) "USD" (.finite 91)
        "EUR" (.finite (91 / 100)) 1700000000000 "2023-11-14T22:13:20.000Z" false =
        .ok ({ conversionHistory := .array [sampleConversion 1700000000000] },
          sampleUnavailable) := by
      simp [CurrencyConverter.saveToHistory, sampleConverter, sampleConversion,
        setItem_unavailable sampleUnavailable _ _ false rfl]
    have hpers : sampleUnavailable.persistedOrEmpty CONSTANTS.STORAGE_KEYS.CONVERSION_HISTORY
        = .arr [] := by
      simp [StorageService.persistedOrEmpty, getItem_unavailable sampleUnavailable _ rfl,
        JsonValue.orEmptyArray, JsonValue.truthy]
    refine ⟨_, _, hsave, rfl, hpers, ?_⟩
    rw [hpers]
    simp [HistoryValue.sameAs]
  · obtain ⟨s2, hset, hav2, hitem, -⟩ := setItem_spec sampleStorage
      CONSTANTS.STORAGE_KEYS.CONVERSION_HISTORY
      (.arr ([HistoryEntry.item 1700000000000 (.finite (10 ^ 308)) "USD" .posInfinity
        "EUR" (.finite 2) "2023-11-14T22:13:20.000Z"].map HistoryEntry.toJson)) rfl
    have hsave : sampleConverter.saveToHistory sampleStorage (.finite (10 ^ 308)) "USD"
        .posInfinity "EUR" (.finite 2) 1700000000000 "2023-11-14T22:13:20.000Z" false =
        .ok ({ conversionHistory := .array [.item 1700000000000 (.finite (10 ^ 308)) "USD"
          .posInfinity "EUR" (.finite 2) "2023-11-14T22:13:20.000Z"] }, s2) := by
      simp only [CurrencyConverter.saveToHistory, sampleConverter, historyItem, List.length_cons,
        List.length_nil]
      rw [if_neg (by decide), hset]
    have hpers := persistedOrEmpty_json_arr s2 _ _ hav2 hitem
    refine ⟨_, s2, hsave, rfl, ?_, ?_⟩
    · rw [hpers]
      simp [HistoryEntry.toJson, JsNumber.toJson]
    · rw [hpers, sameAs_map_toJson]
      simp [HistoryEntry.finite, JsNumber.isFinite]

/-- C18, amended. For every prior history `h`, after `saveToHistory` the
converter holds the new conversion followed by the first nine elements of `h`
in their order, which are `min (|h| + 1) 10` elements.  When storage is
available and the browser does not refuse the write, the persisted history is
that list as `JSON.stringify` writes it, each `NaN` and infinity of an item as
`null`: it is the same value as the history held in memory exactly when the
numbers of its entries are finite. -/
theorem saveToHistory_keeps_ten (c : CurrencyConverter) (storage : StorageService)
    (h : List HistoryEntry) (fromAmount toAmount rate : JsNumber)
    (fromCurrency toCurrency isoTime : String) (now : Int) (refused : Bool)
    (hh : c.conversionHistory = .array h) :
    ∃ c2 s2, c.saveToHistory storage fromAmount fromCurrency toAmount toCurrency rate now isoTime
        refused = .ok (c2, s2) ∧
      c2.conversionHistory =
        .array (historyItem fromAmount fromCurrency toAmount toCurrency rate now isoTime
          :: h.take 9) ∧
      (historyItem fromAmount fromCurrency toAmount toCurrency rate now isoTime
          :: h.take 9).length = min (h.length + 1) 10 ∧
      (storage.available = true → refused = false →
        s2.persistedOrEmpty CONSTANTS.STORAGE_KEYS.CONVERSION_HISTORY
          = .arr ((historyItem fromAmount fromCurrency toAmount toCurrency rate now isoTime
              :: h.take 9).map HistoryEntry.toJson) ∧
        s2.getItem CONSTANTS.STORAGE_KEYS.CONVERSION_HISTORY
          = .ok (.arr ((historyItem fromAmount fromCurrency toAmount toCurrency rate now isoTime
              :: h.take 9).map HistoryEntry.toJson), s2) ∧
        (c2.conversionHistory.sameAs
            (s2.persistedOrEmpty CONSTANTS.STORAGE_KEYS.CONVERSION_HISTORY) ↔
          ∀ e ∈ historyItem fromAmount fromCurrency toAmount toCurrency rate now isoTime
            :: h.take 9, e.finite = true)) := by
  have hcut : (if (historyItem fromAmount fromCurrency toAmount toCurrency rate now isoTime
        :: h).length > 10
      then (historyItem fromAmount fromCurrency toAmount toCurrency rate now isoTime :: h).take 10
      else historyItem fromAmount fromCurrency toAmount toCurrency rate now isoTime :: h)
      = historyItem fromAmount fromCurrency toAmount toCurrency rate now isoTime :: h.take 9 := by
    split
    · rfl
    · rename_i hlen
      simp only [List.length_cons, gt_iff_lt, not_lt] at hlen
      rw [List.take_of_length_le (by omega)]
  have hlen : (historyItem fromAmount fromCurrency toAmount toCurrency rate now isoTime
      :: h.take 9).length = min (h.length + 1) 10 := by
    simp only [List.length_cons, List.length_take]
    omega
  obtain ⟨s2, hset⟩ : ∃ s2, storage.setItem CONSTANTS.STORAGE_KEYS.CONVERSION_HISTORY
      (.arr ((historyItem fromAmount fromCurrency toAmount toCurrency rate now isoTime
        :: h.take 9).map HistoryEntry.toJson)) refused = .ok s2 ∧
      (storage.available = true → refused = false →
        s2.available = true ∧ s2.localStorage.items CONSTANTS.STORAGE_KEYS.CONVERSION_HISTORY
          = some (.json (.arr ((historyItem fromAmount fromCurrency toAmount toCurrency rate
              now isoTime :: h.take 9).map HistoryEntry.toJson)))) := by
    cases refused with
    | true => exact ⟨storage, setItem_refused storage _ _, fun _ hr => by cases hr⟩
    | false =>
      cases ha : storage.available with
      | false => exact ⟨storage, setItem_unavailable storage _ _ false ha, fun hav => by cases hav⟩
      | true =>
        obtain ⟨s2, h1, h2, h3, -⟩ := setItem_spec storage
          CONSTANTS.STORAGE_KEYS.CONVERSION_HISTORY
          (.arr ((historyItem fromAmount fromCurrency toAmount toCurrency rate now isoTime
            :: h.take 9).map HistoryEntry.toJson)) ha
        exact ⟨s2, h1, fun _ _ => ⟨h2, h3⟩⟩
  refine ⟨_, s2, ?_, rfl, hlen, ?_⟩
  · simp only [CurrencyConverter.saveToHistory, hh, hcut, hset.1]
  · intro hav hr
    obtain ⟨h2, h3⟩ := hset.2 hav hr
    have hpers := persistedOrEmpty_json_arr s2 _ _ h2 h3
    refine ⟨hpers, getItem_json s2 _ _ h2 h3, ?_⟩
    rw [hpers]
    exact sameAs_map_toJson _

theorem saveToHistory_keeps_ten_witness :
    (sampleConverterTen.conversionHistory = .array
      [sampleConversion 1700000000010, sampleConversion 1700000000009,
       sampleConversion 1700000000008, sampleConversion 1700000000007,
       sampleConversion 1700000000006, sampleConversion 1700000000005,
       sampleConversion 1700000000004, sampleConversion 1700000000003,
       sampleConversion 1700000000002, sampleConversion 1700000000001] ∧
      sampleStorage.available = true) ∧
    ∃ c2 s2, sampleConverterTen.saveToHistory sampleStorage (.finite 100) "USD" (.finite 91)
        "EUR" (.finite (91 / 100)) 1700000000011 "2023-11-14T22:13:20.000Z" false
        = .ok (c2, s2) ∧
      c2.conversionHistory = .array
        [sampleConversion 1700000000011, sampleConversion 1700000000010,
         sampleConversion 1700000000009, sampleConversion 1700000000008,
         sampleConversion 1700000000007, sampleConversion 1700000000006,
         sampleConversion 1700000000005, sampleConversion 1700000000004,
         sampleConversion 1700000000003, sampleConversion 1700000000002] ∧
      c2.conversionHistory.sameAs
        (s2.persistedOrEmpty CONSTANTS.STORAGE_KEYS.CONVERSION_HISTORY) :=
  have h := saveToHistory_keeps_ten sampleConverterTen sampleStorage
    [sampleConversion 1700000000010, sampleConversion 1700000000009,
     sampleConversion 1700000000008, sampleConversion 1700000000007,
     sampleConversion 1700000000006, sampleConversion 1700000000005,
     sampleConversion 1700000000004, sampleConversion 1700000000003,
     sampleConversion 1700000000002, sampleConversion 1700000000001]
    (.finite 100) (.finite 91) (.finite (91 / 100)) "USD" "EUR" "2023-11-14T22:13:20.000Z"
    1700000000011 false rfl
  ⟨⟨rfl, rfl⟩, h.elim (fun c2 hc => hc.elim (fun s2 hs =>
    ⟨c2, s2, hs.1, hs.2.1, (hs.2.2.2 rfl rfl).2.2.mpr (by
      simp [historyItem, sampleConversion, HistoryEntry.finite, JsNumber.isFinite])⟩))⟩

/-! ## C21: parseNumber -/

theorem parseFloat_number (parseText : String → JsNumber) (n : JsNumber) :
    parseFloat parseText (.number n) = n := rfl

theorem parseNumber_of_nan (parseText : String → JsNumber) (y : JsInput)
    (h : parseFloat parseText y = .nan) : parseNumber parseText y = .finite 0 := by
  simp only [parseNumber, h, JsNumber.isNaN]
  rfl

theorem parseNumber_of_ne_nan (parseText : String → JsNumber) (y : JsInput)
    (h : parseFloat parseText y ≠ .nan) : parseNumber parseText y = parseFloat parseText y := by
  cases hp : parseFloat parseText y with
  | nan => exact absurd hp h
  | negInfinity => simp only [parseNumber, hp, JsNumber.isNaN]; rfl
  | finite q => simp only [parseNumber, hp, JsNumber.isNaN]; rfl
  | posInfinity => simp only [parseNumber, hp, JsNumber.isNaN]; rfl

theorem isValidNumber_number (parseText : String → JsNumber) (n : JsNumber) :
    Validators.isValidNumber parseText (.number n) = (!n.isNaN && n.geZero) := rfl

/-- C21. For every input, and whatever `parseFloat` makes of strings:
`parseNumber` never returns `NaN`; it returns what `parseFloat` returns when
that is a number, and 0 when that is `NaN`; so `Validators.isValidNumber` of
the result is false exactly when the parsed number is negative, and this is
when `convert` rejects the amount typed. -/
theorem parseNumber_safe (parseText : String → JsNumber) (x : JsInput) (typed : String) :
    parseNumber parseText x ≠ .nan ∧
    (parseFloat parseText x ≠ .nan → parseNumber parseText x = parseFloat parseText x) ∧
    (parseFloat parseText x = .nan → parseNumber parseText x = .finite 0) ∧
    (Validators.isValidNumber parseText (.number (parseNumber parseText x)) = false ↔
      (parseFloat parseText x).isNegative = true) ∧
    (CurrencyConverter.convertRejects parseText typed = true ↔
      (parseText typed).isNegative = true) := by
  have key : ∀ y : JsInput,
      (Validators.isValidNumber parseText (.number (parseNumber parseText y)) = false ↔
        (parseFloat parseText y).isNegative = true) := by
    intro y
    rw [isValidNumber_number]
    by_cases hn : parseFloat parseText y = .nan
    · rw [parseNumber_of_nan parseText y hn, hn]
      simp [JsNumber.isNaN, JsNumber.geZero, JsNumber.isNegative]
    · rw [parseNumber_of_ne_nan parseText y hn]
      cases hp : parseFloat parseText y with
      | nan => exact absurd hp hn
      | negInfinity => simp [JsNumber.isNaN, JsNumber.geZero, JsNumber.isNegative]
      | finite q => simp [JsNumber.isNaN, JsNumber.geZero, JsNumber.isNegative]
      | posInfinity => simp [JsNumber.isNaN, JsNumber.geZero, JsNumber.isNegative]
  refine ⟨?_, parseNumber_of_ne_nan parseText x, parseNumber_of_nan parseText x, key x, ?_⟩
  · by_cases hn : parseFloat parseText x = .nan
    · rw [parseNumber_of_nan parseText x hn]
      intro h
      cases h
    · rw [parseNumber_of_ne_nan parseText x hn]
      exact hn
  · have hk := key (.text typed)
    simp only [CurrencyConverter.convertRejects, Bool.not_eq_true']
    exact hk

/-! ## C22: getCountryFlag -/

/-- A property of characters holds of every ASCII letter when it holds of the
characters numbered 65 to 90 and 97 to 122. -/
theorem letter_cases (P : Char → Prop)
    (h : ∀ n, (65 ≤ n ∧ n ≤ 90) ∨ (97 ≤ n ∧ n ≤ 122) → P (Char.ofNat n))
    (c : Char) (hc : isAsciiLetter c = true) : P c := by
  rw [← Char.ofNat_toNat c]
  apply h
  simpa [isAsciiLetter] using hc

theorem letter_facts (c : Char) (hc : isAsciiLetter c = true) :
    c.toNat < 65536 ∧ c.toUpper.toNat < 65536 ∧
    65 ≤ c.toUpper.toNat ∧ c.toUpper.toNat ≤ 90 ∧
    (Char.ofNat (127397 + c.toUpper.toNat)).toNat = 127397 + c.toUpper.toNat ∧
    c.toLower.toUpper = c.toUpper ∧ c.toUpper.toUpper = c.toUpper ∧
    isAsciiLetter c.toLower = true ∧ isAsciiLetter c.toUpper = true ∧ c.toNat < 128 := by
  refine letter_cases (fun c => c.toNat < 65536 ∧ c.toUpper.toNat < 65536 ∧
    65 ≤ c.toUpper.toNat ∧ c.toUpper.toNat ≤ 90 ∧
    (Char.ofNat (127397 + c.toUpper.toNat)).toNat = 127397 + c.toUpper.toNat ∧
    c.toLower.toUpper = c.toUpper ∧ c.toUpper.toUpper = c.toUpper ∧
    isAsciiLetter c.toLower = true ∧ isAsciiLetter c.toUpper = true ∧ c.toNat < 128) ?_ c hc
  intro n hn
  rcases hn with ⟨h1, h2⟩ | ⟨h1, h2⟩ <;> interval_cases n <;> decide

/-- The flag of a code of two ASCII letters. -/
theorem getCountryFlag_letters (platform : Platform) (a b : Char) (ha : isAsciiLetter a = true)
    (hb : isAsciiLetter b = true) :
    getCountryFlag platform (some (String.mk [a, b])) =
      String.mk [Char.ofNat (127397 + a.toUpper.toNat), Char.ofNat (127397 + b.toUpper.toNat)] := by
  obtain ⟨ha1, ha2, -⟩ := letter_facts a ha
  obtain ⟨hb1, hb2, -⟩ := letter_facts b hb
  have ha0 : a.toNat < 128 := (letter_facts a ha).2.2.2.2.2.2.2.2.2
  have hb0 : b.toNat < 128 := (letter_facts b hb).2.2.2.2.2.2.2.2.2
  have hne : ¬ (String.mk [a, b] = "") := by
    intro h
    have := congrArg String.data h
    simp at this
  have hlen : utf16Length (String.mk [a, b]) = 2 := by
    simp [utf16Length, ha1, hb1]
  simp [getCountryFlag, hne, hlen, fromCodePoint, utf16Units, toUpperCase, ha0, hb0, ha2, hb2]

/-- C22. For a code of two ASCII letters `a` and `b`, the flag has two code
points, the first 127397 plus the char code of the upper-cased `a` and the
second 127397 plus that of the upper-cased `b`, both from U+1F1E6 (127462) to
U+1F1FF (127487); the lower-cased and the upper-cased code give the same flag.
A missing code, the empty code and every code whose length is not two give
the globe. -/
theorem getCountryFlag_spec (platform : Platform) (a b : Char) (code : String)
    (ha : isAsciiLetter a = true) (hb : isAsciiLetter b = true) :
    ((getCountryFlag platform (some (String.mk [a, b]))).data.map Char.toNat =
        [127397 + a.toUpper.toNat, 127397 + b.toUpper.toNat] ∧
      (getCountryFlag platform (some (String.mk [a, b]))).data.length = 2 ∧
      (65 ≤ a.toUpper.toNat ∧ a.toUpper.toNat ≤ 90 ∧ 65 ≤ b.toUpper.toNat ∧ b.toUpper.toNat ≤ 90) ∧
      (∀ p ∈ (getCountryFlag platform (some (String.mk [a, b]))).data, 127462 ≤ p.toNat ∧ p.toNat ≤ 127487)) ∧
    (getCountryFlag platform (some (toLowerCase platform (String.mk [a, b])))
        = getCountryFlag platform (some (String.mk [a, b])) ∧
      getCountryFlag platform (some (toUpperCase platform (String.mk [a, b]))) = getCountryFlag platform (some (String.mk [a, b]))) ∧
    (getCountryFlag platform none = "🌍" ∧ getCountryFlag platform (some "") = "🌍" ∧
      (utf16Length code ≠ 2 → getCountryFlag platform (some code) = "🌍")) := by
  obtain ⟨-, -, ha3, ha4, ha5, ha6, ha7, ha8, ha9, -⟩ := letter_facts a ha
  obtain ⟨-, -, hb3, hb4, hb5, hb6, hb7, hb8, hb9, -⟩ := letter_facts b hb
  have hflag := getCountryFlag_letters platform a b ha hb
  refine ⟨⟨?_, ?_, ⟨ha3, ha4, hb3, hb4⟩, ?_⟩, ⟨?_, ?_⟩, rfl, by simp [getCountryFlag], ?_⟩
  · rw [hflag]
    simp [ha5, hb5]
  · rw [hflag]
    rfl
  · rw [hflag]
    intro p hp
    simp only [List.mem_cons, List.mem_singleton, List.not_mem_nil, or_false] at hp
    rcases hp with rfl | rfl
    · rw [ha5]; omega
    · rw [hb5]; omega
  · have hlow : toLowerCase platform (String.mk [a, b]) = String.mk [a.toLower, b.toLower] := by
      have ha0 : a.toNat < 128 := (letter_facts a ha).2.2.2.2.2.2.2.2.2
      have hb0 : b.toNat < 128 := (letter_facts b hb).2.2.2.2.2.2.2.2.2
      simp [toLowerCase, ha0, hb0]
    rw [hlow, getCountryFlag_letters platform _ _ ha8 hb8, hflag, ha6, hb6]
  · have hup : toUpperCase platform (String.mk [a, b]) = String.mk [a.toUpper, b.toUpper] := by
      have ha0 : a.toNat < 128 := (letter_facts a ha).2.2.2.2.2.2.2.2.2
      have hb0 : b.toNat < 128 := (letter_facts b hb).2.2.2.2.2.2.2.2.2
      simp [toUpperCase, ha0, hb0]
    rw [hup, getCountryFlag_letters platform _ _ ha9 hb9, hflag, ha7, hb7]
  · intro hlen
    simp [getCountryFlag, hlen]

theorem getCountryFlag_spec_witness :
    (isAsciiLetter 'f' = true ∧ isAsciiLetter 'r' = true) ∧
    (getCountryFlag samplePlatform (some (String.mk ['f', 'r']))).data.map Char.toNat
      = [127397 + 'f'.toUpper.toNat, 127397 + 'r'.toUpper.toNat] ∧
    getCountryFlag samplePlatform (some "fr") = "🇫🇷" :=
  ⟨⟨by decide, by decide⟩,
    (getCountryFlag_spec samplePlatform 'f' 'r' "France" (by decide) (by decide)).1.1, by decide⟩

/-! ## C23: the total budget in the two trip views -/

/-- Where the two totals do agree: the sum of the destination budgets is
positive, or it is zero and the trip budget is a number. -/
theorem totalBudget_agree (trip : TripRecord)
    (h : 0 < destinationsBudget trip ∨
      (destinationsBudget trip = 0 ∧ ∃ q, trip.budget = some q)) :
    BudgetCalculator.totalBudget trip = TripManager.totalBudget trip := by
  rcases h with hpos | ⟨hzero, q, hq⟩
  · simp [BudgetCalculator.totalBudget, TripManager.totalBudget, hpos, ne_of_gt hpos]
  · simp [BudgetCalculator.totalBudget, TripManager.totalBudget, hzero, hq, orZero]

/-- C23 at its failing inputs. For a trip with budget 100 and one destination
of budget -50, `BudgetCalculator` shows 100 and `TripManager` shows -50; for a
trip with no destination whose budget is no number, `BudgetCalculator` shows 0
and `TripManager` the budget field as it is. -/
theorem totalBudget_views_differ :
    BudgetCalculator.totalBudget sampleTrip = some 100 ∧
    TripManager.totalBudget sampleTrip = some (-50) ∧
    BudgetCalculator.totalBudget sampleTrip ≠ TripManager.totalBudget sampleTrip ∧
    BudgetCalculator.totalBudget sampleTripNoBudget = some 0 ∧
    TripManager.totalBudget sampleTripNoBudget = none := by
  have hsum : destinationsBudget sampleTrip = -50 := by
    simp [destinationsBudget, sampleTrip, orZero]
  have hsum0 : destinationsBudget sampleTripNoBudget = 0 := by
    simp [destinationsBudget, sampleTripNoBudget]
  have h1 : BudgetCalculator.totalBudget sampleTrip = some 100 := by
    unfold BudgetCalculator.totalBudget
    rw [hsum]
    simp [sampleTrip, orZero]
  have h2 : TripManager.totalBudget sampleTrip = some (-50) := by
    unfold TripManager.totalBudget
    rw [hsum]
    simp
  refine ⟨h1, h2, ?_, ?_, ?_⟩
  · rw [h1, h2]
    norm_num
  · unfold BudgetCalculator.totalBudget
    rw [hsum0]
    simp [sampleTripNoBudget, orZero]
  · unfold TripManager.totalBudget
    rw [hsum0]
    simp [sampleTripNoBudget]

/-! ## C24: referential integrity of expenses -/

/-- C24 at a failing input. From the empty store: a trip is created, selected
in the expense tracker and given an expense, then deleted in the budget
calculator. No trip is persisted any more and the expense of the deleted trip
still is: referential integrity does not hold. -/
theorem budgetDeleteTrip_orphans_expense (platform : Platform) :
    ∃ app, Application.start.run platform
        [.createTrip (tripRecord "_t1" "Rome" 500), .selectTrip "_t1", .addExpense "_e1" 20,
         .budgetDeleteTrip "_t1"] = .ok app ∧
      app.persistedTrips = .arr [] ∧
      app.persistedExpenses = .arr [expenseRecord "_e1" (some "_t1") 20] ∧
      ¬ app.referentialIntegrity := by
  simp [Application.run, Application.step, Application.start, Application.handleTripSubmit,
    Application.saveTrips, Application.notifyOtherModules, Application.selectTrip,
    Application.handleExpenseSubmit, Application.budgetDeleteTrip, TripManager.loadTrips,
    TripManager.displayTrips, TripManager.renderTrip, firstRaised, reduceBudgetsRaises,
    conversionRaises, formatDate, formatCurrency, ExpenseTracker.loadData, JsonValue.push, JsonValue.filter, filterE, propDiffers,
    JsonValue.getProp, JsonValue.prop, strictNe, tripRecord, expenseRecord,
    StorageService.setItem, StorageService.getItem, LocalStorage.setItem, LocalStorage.getItem,
    JSON.stringify, JSON.parse, StoredText.truthy, JsonValue.orEmptyArray, JsonValue.truthy,
    CONSTANTS.STORAGE_KEYS.TRIPS, CONSTANTS.STORAGE_KEYS.EXPENSES, Application.persistedTrips,
    Application.persistedExpenses, StorageService.persistedOrEmpty, List.lookup,
    Application.referentialIntegrity]

/-! ## C25: durability of a deletion -/

/-- C25 at a failing input. From the empty store two trips are created and
the first is given an expense; the first trip is deleted in the trip manager,
after which the second trip alone is persisted, with no expense. Then an
expense is added to the second trip and a third trip is created: the deleted
trip and its expense are persisted again. -/
theorem managerDeleteTrip_not_durable (platform : Platform) :
    ∃ mid final,
      Application.start.run platform
        [.createTrip (tripRecord "_t1" "Rome" 500), .createTrip (tripRecord "_t2" "Oslo" 300),
         .selectTrip "_t1", .addExpense "_e1" 20, .managerDeleteTrip "_t1"] = .ok mid ∧
      mid.persistedTrips = .arr [tripRecord "_t2" "Oslo" 300] ∧
      mid.persistedExpenses = .arr [] ∧
      mid.run platform [.selectTrip "_t2", .addExpense "_e2" 30,
        .createTrip (tripRecord "_t3" "Lima" 100)] = .ok final ∧
      final.persistedTrips =
        .arr [tripRecord "_t1" "Rome" 500, tripRecord "_t2" "Oslo" 300,
              tripRecord "_t3" "Lima" 100] ∧
      final.persistedExpenses =
        .arr [expenseRecord "_e1" (some "_t1") 20, expenseRecord "_e2" (some "_t2") 30] := by
  simp [Application.run, Application.step, Application.start, Application.handleTripSubmit,
    Application.saveTrips, Application.notifyOtherModules, Application.selectTrip,
    Application.handleExpenseSubmit, Application.managerDeleteTrip, TripManager.deleteTrip,
    TripManager.loadTrips, TripManager.displayTrips, TripManager.renderTrip, firstRaised,
    reduceBudgetsRaises, conversionRaises, formatDate, formatCurrency, ExpenseTracker.loadData,
    JsonValue.push, JsonValue.filter, filterE,
    propDiffers, JsonValue.getProp, JsonValue.prop, strictNe, tripRecord, expenseRecord,
    StorageService.setItem, StorageService.getItem, LocalStorage.setItem, LocalStorage.getItem,
    JSON.stringify, JSON.parse, StoredText.truthy, JsonValue.orEmptyArray, JsonValue.truthy,
    CONSTANTS.STORAGE_KEYS.TRIPS, CONSTANTS.STORAGE_KEYS.EXPENSES, Application.persistedTrips,
    Application.persistedExpenses, StorageService.persistedOrEmpty, List.lookup]

end TravelBudget
